import Mathlib

/-!
The authentication / authorization dispatcher of aah (`security.go`).

A shallow embedding of `engine.handleAuthcAndAuthz`, `engine.doFormAuthcAndAuthz`
and `engine.doAuthcAndAuthz`, followed by the request wrapper of
`ahttp/request.go`.  The mutable `*Context` becomes a value that is
threaded through the flow; the calls the dispatcher makes on its collaborators
(security manager, scheme, event hooks, reply writer) are recorded, in order, in
a log that is returned next to the final context.  A Go run-time panic (failed
type assertion, nil pointer dereference) is the outcome `flow = none`.

Pointers the request pipeline establishes before the dispatcher runs (the
context, its route, request, raw request, subject and session) are values;
pointers handed back by pluggable code (`GetAuthScheme`, `DoAuthenticate`,
`DoAuthorizationInfo`, a value read from the session) are `Option`s, `none`
being Go's `nil`.
-/

namespace ahttp

/-- Modelled from the spec: the constant `ahttp.MethodPost` (declared outside
`request.go`), the form-submission method. -/
def MethodPost : String := "POST"

/-- Modelled from the spec: the constant `ahttp.HeaderWWWAuthenticate` (declared
outside `request.go`), the name of the challenge header. -/
def HeaderWWWAuthenticate : String := "WWW-Authenticate"

end ahttp

namespace ess

/-- Modelled from the spec: `ess.IsStrEmpty` of the essentials library, which is
not part of the sources; the dispatcher uses it to test that no `_rt` value was
submitted. -/
def IsStrEmpty (v : String) : Bool := v == ""

end ess

namespace url

/-- The part of Go's `net/url.URL` the request wrapper reads and writes. -/
structure URL where
  Scheme : String := ""
  Host : String := ""
  Path : String := ""
  deriving DecidableEq, Repr

end url

namespace multipart

/-- An uploaded file as `multipart.File` hands it to a reader: the bytes it
holds, and, when reading it fails, the number of bytes delivered before the
failure together with the error. -/
structure File where
  data : List Nat := []
  readError : Option (Nat × String) := none
  deriving DecidableEq, Repr

end multipart

namespace http

/-- Go's `http.Header`, a map from a header name to its values; the empty list
is the nil map. -/
abbrev Header := List (String × List String)

/-- Go's map index `h[key]` on a header: the values of the key, the nil slice
when the key is absent. -/
def Header.index (h : Header) (key : String) : List String :=
  (h.lookup key).getD []

/-- The part of Go's `net/http.Request` the dispatcher and the request wrapper
read: the request URI as sent by the client, the parsed form (a key with its
values, in order), the method, protocol, URL and headers, and the uploaded
multipart files (a form key with its first file). -/
structure Request where
  RequestURI : String := ""
  Form : List (String × List String) := []
  Method : String := ""
  Proto : String := ""
  URL : url.URL := {}
  Header : Header := []
  MultipartFiles : List (String × multipart.File) := []
  deriving DecidableEq, Repr

/-- Go's `(*http.Request).FormFile`: the first uploaded file of the form key, or
the error `http.ErrMissingFile`. -/
def Request.FormFile (r : Request) (key : String) : Except String multipart.File :=
  match r.MultipartFiles.lookup key with
  | some file => .ok file
  | none => .error "http: no such file"

/-- Go's `(*http.Request).FormValue`: the first value of the key in the form,
the empty string when there is none. -/
def Request.FormValue (r : Request) (key : String) : String :=
  match r.Form.lookup key with
  | some (v :: _) => v
  | _ => ""

end http

namespace authc

/-- Go's `error` values as `DoAuthenticate` produces them: the sentinel
`authc.ErrAuthenticationFailed`, or any other error. -/
inductive Error where
  | ErrAuthenticationFailed
  | other (msg : String)
  deriving DecidableEq, Repr

/-- Modelled from the spec: `authc.AuthenticationToken`, the credential token a
scheme extracts from a request. -/
structure AuthenticationToken where
  Scheme : String := ""
  Identity : String := ""
  Credential : String := ""
  deriving DecidableEq, Repr

/-- Modelled from the spec: `authc.AuthenticationInfo`, principal identity plus
the `Credential` byte slice; the empty list is Go's `nil` slice. -/
structure AuthenticationInfo where
  Principals : List String := []
  Credential : List Nat := []
  deriving DecidableEq, Repr

end authc

namespace authz

/-- Modelled from the spec: `authz.AuthorizationInfo`, the resolved roles and
permissions of a principal. -/
structure AuthorizationInfo where
  Roles : List String := []
  Permissions : List String := []
  deriving DecidableEq, Repr

end authz

namespace session

/-- A value held by the session store (Go's `interface{}`): a pointer to an
`AuthenticationInfo`, or a value of some other dynamic type. -/
inductive Value where
  | authcInfo (p : Option authc.AuthenticationInfo)
  | other (v : String)
  deriving DecidableEq, Repr

/-- Modelled from the spec: `session.Session`, an opaque ID, a mapping of keys
to values and the boolean `IsAuthenticated`. -/
structure Session where
  ID : String := ""
  Values : List (String × Value) := []
  IsAuthenticated : Bool := false
  deriving DecidableEq, Repr

/-- Modelled from the spec: `Session.IsKeyExists(key)`. -/
def Session.IsKeyExists (s : Session) (key : String) : Bool :=
  (s.Values.lookup key).isSome

/-- Modelled from the spec: `Session.Get(key)`, the value or absent. -/
def Session.Get (s : Session) (key : String) : Option Value :=
  s.Values.lookup key

/-- Modelled from the spec: `Session.Set(key, value)`, which binds the key to
the value and replaces an earlier binding of the same key. -/
def Session.Set (s : Session) (key : String) (value : Value) : Session :=
  { s with Values := (key, value) :: s.Values.filter (fun kv => kv.1 != key) }

end session

namespace scheme

/-- The configuration of `scheme.FormAuth` the dispatcher reads. -/
structure FormAuth where
  LoginURL : String := ""
  LoginSubmitURL : String := ""
  LoginFailureURL : String := ""
  DefaultTargetURL : String := ""
  IsAlwaysToDefaultTarget : Bool := false
  deriving DecidableEq, Repr

/-- The configuration of `scheme.BasicAuth` the dispatcher reads. -/
structure BasicAuth where
  RealmName : String := ""
  deriving DecidableEq, Repr

/-- The dynamic type behind a `scheme.Schemer` interface value, which the type
assertions `.(*scheme.FormAuth)` and `.(*scheme.BasicAuth)` inspect. -/
inductive Concrete where
  | FormAuth (f : FormAuth)
  | BasicAuth (b : BasicAuth)
  | custom
  deriving DecidableEq, Repr

end scheme

namespace aah

/-- The ahttp request as `security.go` reads it: `ctx.Req.Path`,
`ctx.Req.Method` and the raw request `ctx.Req.Raw`. -/
structure Request where
  Path : String := ""
  Method : String := ""
  Raw : http.Request := {}
  deriving DecidableEq, Repr

end aah

namespace scheme

/-- The interface `scheme.Schemer`: the scheme kind returned by `Scheme()`, and
the three methods `ExtractAuthenticationToken`, `DoAuthenticate` (a pointer and
an error) and `DoAuthorizationInfo`, next to the dynamic type of the value. -/
structure Schemer where
  concrete : Concrete
  Scheme : String
  ExtractAuthenticationToken : aah.Request → authc.AuthenticationToken
  DoAuthenticate : authc.AuthenticationToken →
    Option authc.AuthenticationInfo × Option authc.Error
  DoAuthorizationInfo : Option authc.AuthenticationInfo → Option authz.AuthorizationInfo

end scheme

namespace security

/-- Modelled from the spec: `security.Subject`, the per-request identity
container with one session reference and at most one
AuthenticationInfo/AuthorizationInfo pair. -/
structure Subject where
  AuthenticationInfo : Option authc.AuthenticationInfo := none
  AuthorizationInfo : Option authz.AuthorizationInfo := none
  Session : session.Session := {}
  deriving DecidableEq, Repr

/-- Modelled from the spec: `Subject.IsAuthenticated()`, the session flag. -/
def Subject.IsAuthenticated (s : Subject) : Bool := s.Session.IsAuthenticated

/-- The security manager as the dispatcher uses it: `GetAuthScheme(name)`
resolves a configured scheme, `none` being the nil scheme. -/
structure Manager where
  GetAuthScheme : String → Option scheme.Schemer

end security

namespace aah

/-- The value of the constant `keyAuthcInfo`. -/
def keyAuthcInfo : String := "_aahAuthcInfo"

/-- The flow signal of the engine. -/
inductive flowResult where
  | flowCont
  | flowStop
  deriving DecidableEq, Repr

export flowResult (flowCont flowStop)

/-- The matched route: its auth policy name and its path. -/
structure Route where
  Auth : String := ""
  Path : String := ""
  deriving DecidableEq, Repr

/-- One call on the `Reply` surface. -/
inductive ReplyCall where
  | Redirect (url : String)
  | Unauthorized
  | Header (key value : String)
  deriving DecidableEq, Repr

/-- Modelled from the spec: the `Reply` of a context, which the dispatcher only
drives through its setters `Redirect`, `Unauthorized` and `Header`; it is the
sequence of setter calls made on it, oldest first. -/
abbrev Reply := List ReplyCall

/-- A call the dispatcher makes on a collaborator. `writeReply` carries the
reply as it stands when it is written. -/
inductive Event where
  | getAuthScheme (name : String)
  | preAuth
  | postAuth
  | extractAuthenticationToken
  | doAuthenticate (token : authc.AuthenticationToken)
  | doAuthorizationInfo (info : Option authc.AuthenticationInfo)
  | writeReply (reply : Reply)
  deriving DecidableEq, Repr

/-- Modelled from the spec: the request `Context`, which carries the matched
route, the request, the subject (with its session) and the reply. -/
structure Context where
  route : Route := {}
  Req : Request := {}
  subject : security.Subject := {}
  reply : Reply := []
  deriving DecidableEq, Repr

/-- The session of the context: `ctx.Session()`. -/
def Context.Session (ctx : Context) : session.Session := ctx.subject.Session

/-- Assignment to `ctx.Subject().AuthenticationInfo`. -/
def Context.setAuthenticationInfo (ctx : Context)
    (p : Option authc.AuthenticationInfo) : Context :=
  { ctx with subject := { ctx.subject with AuthenticationInfo := p } }

/-- Assignment to `ctx.Subject().AuthorizationInfo`. -/
def Context.setAuthorizationInfo (ctx : Context)
    (p : Option authz.AuthorizationInfo) : Context :=
  { ctx with subject := { ctx.subject with AuthorizationInfo := p } }

/-- Replacement of the session the subject refers to. -/
def Context.setSession (ctx : Context) (s : session.Session) : Context :=
  { ctx with subject := { ctx.subject with Session := s } }

/-- A setter call on `ctx.Reply()`. -/
def Context.replyCall (ctx : Context) (c : ReplyCall) : Context :=
  { ctx with reply := ctx.reply ++ [c] }

/-- How a dispatch ends: the flow signal (`none` when the goroutine panicked
before returning), the context as the dispatch left it, and the calls made on
collaborators, oldest first. -/
structure Result where
  flow : Option flowResult
  ctx : Context
  log : List Event

/-- The `engine.doFormAuthcAndAuthz` method: form authentication and
authorization. -/
def doFormAuthcAndAuthz (ascheme : scheme.Schemer) (ctx : Context) : Result :=
  match ascheme.concrete with
  | .FormAuth formAuth =>
    if ctx.subject.IsAuthenticated then
      if ctx.Session.IsKeyExists keyAuthcInfo then
        match ctx.Session.Get keyAuthcInfo with
        | some (.authcInfo p) =>
          let ctx1 := ctx.setAuthenticationInfo p
          let ctx2 := ctx1.setAuthorizationInfo
            (ascheme.DoAuthorizationInfo ctx1.subject.AuthenticationInfo)
          ⟨some flowCont, ctx2, [.doAuthorizationInfo ctx1.subject.AuthenticationInfo]⟩
        | _ => ⟨none, ctx, []⟩
      else
        ⟨some flowCont, ctx, []⟩
    else if formAuth.LoginSubmitURL != ctx.route.Path && ctx.Req.Method != ahttp.MethodPost then
      let loginURL :=
        if formAuth.LoginURL != ctx.Req.Path then
          formAuth.LoginURL ++ "?_rt=" ++ ctx.Req.Raw.RequestURI
        else formAuth.LoginURL
      let ctx1 := ctx.replyCall (.Redirect loginURL)
      ⟨some flowStop, ctx1, [.writeReply ctx1.reply]⟩
    else
      let token := ascheme.ExtractAuthenticationToken ctx.Req
      let res := ascheme.DoAuthenticate token
      let authcInfo := res.1
      let err := res.2
      let log1 := [Event.preAuth, .extractAuthenticationToken, .doAuthenticate token]
      if err == some authc.Error.ErrAuthenticationFailed then
        let ctx1 := ctx.replyCall
          (.Redirect (formAuth.LoginFailureURL ++ "&_rt=" ++ ctx.Req.Raw.FormValue "_rt"))
        ⟨some flowStop, ctx1, log1 ++ [.writeReply ctx1.reply]⟩
      else
        let ctx1 := ctx.setAuthenticationInfo authcInfo
        let ctx2 := ctx1.setAuthorizationInfo (ascheme.DoAuthorizationInfo authcInfo)
        let ctx3 := ctx2.setSession { ctx2.Session with IsAuthenticated := true }
        let log2 := log1 ++ [.doAuthorizationInfo authcInfo]
        match ctx3.subject.AuthenticationInfo with
        | none => ⟨none, ctx3, log2⟩
        | some info =>
          let ctx4 := ctx3.setAuthenticationInfo (some { info with Credential := [] })
          let ctx5 := ctx4.setSession
            (ctx4.Session.Set keyAuthcInfo (.authcInfo ctx4.subject.AuthenticationInfo))
          let rt := ctx5.Req.Raw.FormValue "_rt"
          let ctx6 :=
            if formAuth.IsAlwaysToDefaultTarget || ess.IsStrEmpty rt then
              ctx5.replyCall (.Redirect formAuth.DefaultTargetURL)
            else
              ctx5.replyCall (.Redirect rt)
          ⟨some flowStop, ctx6, log2 ++ [.postAuth, .writeReply ctx6.reply]⟩
  | _ => ⟨none, ctx, []⟩

/-- The `engine.doAuthcAndAuthz` method: authentication and authorization for
every scheme other than the form scheme. -/
def doAuthcAndAuthz (ascheme : scheme.Schemer) (ctx : Context) : Result :=
  let token := ascheme.ExtractAuthenticationToken ctx.Req
  let res := ascheme.DoAuthenticate token
  let authcInfo := res.1
  let err := res.2
  let log1 := [Event.preAuth, .extractAuthenticationToken, .doAuthenticate token]
  if err == some authc.Error.ErrAuthenticationFailed then
    let ctx1 := ctx.replyCall .Unauthorized
    if ascheme.Scheme == "basic" then
      match ascheme.concrete with
      | .BasicAuth basicAuth =>
        let ctx2 := ctx1.replyCall
          (.Header ahttp.HeaderWWWAuthenticate ("Basic realm=\"" ++ basicAuth.RealmName ++ "\""))
        ⟨some flowStop, ctx2, log1 ++ [.writeReply ctx2.reply]⟩
      | _ => ⟨none, ctx1, log1⟩
    else
      ⟨some flowStop, ctx1, log1 ++ [.writeReply ctx1.reply]⟩
  else
    let ctx1 := ctx.setAuthenticationInfo authcInfo
    let ctx2 := ctx1.setAuthorizationInfo (ascheme.DoAuthorizationInfo authcInfo)
    let ctx3 := ctx2.setSession { ctx2.Session with IsAuthenticated := true }
    let log2 := log1 ++ [.doAuthorizationInfo authcInfo]
    match ctx3.subject.AuthenticationInfo with
    | none => ⟨none, ctx3, log2⟩
    | some info =>
      let ctx4 := ctx3.setAuthenticationInfo (some { info with Credential := [] })
      ⟨some flowCont, ctx4, log2 ++ [.postAuth]⟩

/-- The `engine.handleAuthcAndAuthz` method: the dispatch on the route auth
policy and on the kind of the resolved scheme. -/
def handleAuthcAndAuthz (m : security.Manager) (ctx : Context) : Result :=
  if ctx.route.Auth == "anonymous" then
    ⟨some flowCont, ctx, []⟩
  else
    match m.GetAuthScheme ctx.route.Auth with
    | none => ⟨some flowCont, ctx, [.getAuthScheme ctx.route.Auth]⟩
    | some authScheme =>
      let r :=
        if authScheme.Scheme == "form" then doFormAuthcAndAuthz authScheme ctx
        else doAuthcAndAuthz authScheme ctx
      { r with log := .getAuthScheme ctx.route.Auth :: r.log }

/-! ## Sample collaborators and contexts -/

/-- A form scheme with the given configuration and authentication outcome. -/
def formScheme (f : scheme.FormAuth)
    (outcome : Option authc.AuthenticationInfo × Option authc.Error) : scheme.Schemer where
  concrete := .FormAuth f
  Scheme := "form"
  ExtractAuthenticationToken := fun _ => {}
  DoAuthenticate := fun _ => outcome
  DoAuthorizationInfo := fun p => p.map (fun a => { Roles := a.Principals })

/-- A basic scheme with the given realm and authentication outcome. -/
def basicScheme (realm : String)
    (outcome : Option authc.AuthenticationInfo × Option authc.Error) : scheme.Schemer where
  concrete := .BasicAuth { RealmName := realm }
  Scheme := "basic"
  ExtractAuthenticationToken := fun _ => {}
  DoAuthenticate := fun _ => outcome
  DoAuthorizationInfo := fun p => p.map (fun a => { Roles := a.Principals })

/-- A manager that resolves the one name `"auth"` to the given scheme. -/
def managerOf (s : scheme.Schemer) : security.Manager where
  GetAuthScheme := fun name => if name == "auth" then some s else none

/-- A sample form configuration. -/
def sampleForm : scheme.FormAuth where
  LoginURL := "/login.html"
  LoginSubmitURL := "/login"
  LoginFailureURL := "/login.html?error=true"
  DefaultTargetURL := "/"

/-- A sample principal with a credential. -/
def alice : authc.AuthenticationInfo where
  Principals := ["alice"]
  Credential := [115, 51, 99, 114, 51, 116]

/-- A request for a public page on an anonymous route. -/
def anonymousCtx : Context where
  route := { Auth := "anonymous", Path := "/index.html" }
  Req := { Path := "/index.html", Method := "GET", Raw := { RequestURI := "/index.html" } }

/-- A request on a route whose auth policy names a scheme nobody configured. -/
def unknownSchemeCtx : Context where
  route := { Auth := "ldap", Path := "/admin" }
  Req := { Path := "/admin", Method := "GET", Raw := { RequestURI := "/admin" } }

/-- A login submission: a POST of the login form to the login-submit route,
asking to return to `/dashboard`. -/
def loginSubmitCtx : Context where
  route := { Auth := "auth", Path := "/login" }
  Req := { Path := "/login", Method := "POST",
           Raw := { RequestURI := "/login",
                    Form := [("username", ["alice"]), ("_rt", ["/dashboard"])] } }

/-- A GET of a protected page by a client that is not logged in. -/
def protectedGetCtx : Context where
  route := { Auth := "auth", Path := "/admin" }
  Req := { Path := "/admin", Method := "GET", Raw := { RequestURI := "/admin?tab=2" } }

/-- A POST to a protected route other than the login-submit route by a client
that is not logged in. -/
def protectedPostCtx : Context where
  route := { Auth := "auth", Path := "/admin" }
  Req := { Path := "/admin", Method := "POST", Raw := { RequestURI := "/admin" } }

/-- A GET of the login-submit route by a client that is not logged in. -/
def submitGetCtx : Context where
  route := { Auth := "auth", Path := "/login" }
  Req := { Path := "/login", Method := "GET", Raw := { RequestURI := "/login" } }

/-- An error other than `ErrAuthenticationFailed`. -/
def backendDown : authc.Error := .other "backend unavailable"

/-- No `AuthenticationInfo` held by the session store carries a non-empty
credential. -/
def credentialFree (s : session.Session) : Bool :=
  s.Values.all fun kv =>
    match kv.2 with
    | .authcInfo (some a) => a.Credential.isEmpty
    | _ => true

/-- A protected request of a client whose session already caches another
principal, credential cleared. -/
def returningCtx : Context where
  route := { Auth := "auth", Path := "/api/users" }
  Req := { Path := "/api/users", Method := "GET", Raw := { RequestURI := "/api/users" } }
  subject :=
    { Session :=
        { ID := "s1"
          Values := [("theme", .other "dark"),
                     ("peer", .authcInfo (some { Principals := ["bob"] }))] } }

/-- A GET of the login page itself by a client that is not logged in. -/
def loginPageCtx : Context where
  route := { Auth := "auth", Path := "/login.html" }
  Req := { Path := "/login.html", Method := "GET", Raw := { RequestURI := "/login.html" } }

/-- A protected request of a logged-in client: the session is flagged
authenticated and caches alice, credential cleared. -/
def loggedInCtx : Context where
  route := { Auth := "auth", Path := "/admin" }
  Req := { Path := "/admin", Method := "GET", Raw := { RequestURI := "/admin" } }
  subject :=
    { Session :=
        { ID := "s2"
          Values := [("_aahAuthcInfo", .authcInfo (some { Principals := ["alice"] }))]
          IsAuthenticated := true } }

/-- A scheme of a kind other than form and basic, with the given
authentication outcome. -/
def tokenScheme
    (outcome : Option authc.AuthenticationInfo × Option authc.Error) : scheme.Schemer where
  concrete := .custom
  Scheme := "token"
  ExtractAuthenticationToken := fun _ => {}
  DoAuthenticate := fun _ => outcome
  DoAuthorizationInfo := fun p => p.map (fun a => { Roles := a.Principals })

/-- A protected request of a client whose session is flagged authenticated but
holds a value of another type under the cache key. -/
def corruptCacheCtx : Context where
  route := { Auth := "auth", Path := "/admin" }
  Req := { Path := "/admin", Method := "GET", Raw := { RequestURI := "/admin" } }
  subject :=
    { Session :=
        { ID := "s3"
          Values := [("_aahAuthcInfo", .other "alice")]
          IsAuthenticated := true } }

/-- A protected request of a client whose session is flagged authenticated but
holds nothing under the cache key. -/
def lostCacheCtx : Context where
  route := { Auth := "auth", Path := "/admin" }
  Req := { Path := "/admin", Method := "GET", Raw := { RequestURI := "/admin" } }
  subject :=
    { AuthenticationInfo := some { Principals := ["carol"] }
      Session := { ID := "s4", Values := [("theme", .other "dark")], IsAuthenticated := true } }

/-- The event is a `writeReply`. -/
def isWriteReply : Event → Bool
  | .writeReply _ => true
  | _ => false

/-- How many times the reply was written during a dispatch. -/
def writes (log : List Event) : Nat := (log.filter isWriteReply).length

/-- The setter call is a `Redirect` or an `Unauthorized`. -/
def isResponse : ReplyCall → Bool
  | .Redirect _ => true
  | .Unauthorized => true
  | .Header _ _ => false

/-- The flow signal tells what happened to the reply `before` of the context:
flowStop goes with exactly one `writeReply`, made last, of a reply that got a
`Redirect` or `Unauthorized` first; every other outcome goes with no
`writeReply`; flowCont goes with an untouched reply. -/
def FlowSignal (before : Reply) (r : Result) : Prop :=
  (r.flow = some flowStop ↔ writes r.log = 1) ∧
  (r.flow ≠ some flowStop ↔ writes r.log = 0) ∧
  (r.flow = some flowStop →
    ∃ c rest, r.ctx.reply = before ++ c :: rest ∧ isResponse c = true ∧
      r.log.getLast? = some (.writeReply r.ctx.reply)) ∧
  (r.flow = some flowCont → r.ctx.reply = before)

end aah

/-! ## The request wrapper (`ahttp/request.go`) -/

namespace strings

/-- The scan behind Go's `strings.Index`: the position, counted from `i`, of
the first place where `substr` starts in the remaining characters, -1 when
there is none. -/
def indexFrom (substr : List Char) : List Char → Nat → Int
  | [], i => if substr.isPrefixOf [] then (i : Int) else -1
  | c :: cs, i =>
    if substr.isPrefixOf (c :: cs) then (i : Int) else indexFrom substr cs (i + 1)

/-- Go's `strings.Index(s, substr)`, with positions counted in characters: the
index of the first instance of `substr` in `s`, -1 when `substr` is not present. -/
def Index (s substr : String) : Int := indexFrom substr.toList s.toList 0

end strings

namespace os

/-- The file system as `SaveFile` meets it: the existing directories, the
existing regular files with their bytes, the paths at which the system refuses
to create a file (missing parent directory, no permission, ...) with the error
it gives, and the number of bytes that can still be written (`none` when there
is no limit). -/
structure FileSystem where
  dirs : List String := []
  files : List (String × List Nat) := []
  refused : List (String × String) := []
  space : Option Nat := none
  deriving DecidableEq, Repr

/-- The path names an existing directory or file. -/
def FileSystem.isPresent (fs : FileSystem) (path : String) : Bool :=
  fs.dirs.contains path || (fs.files.lookup path).isSome

/-- Go's `os.OpenFile(path, O_WRONLY|O_CREATE|O_EXCL, 0666)`: it fails on a path
that exists and on a path at which the system refuses the creation; otherwise
the empty file is created. -/
def FileSystem.OpenFile (fs : FileSystem) (path : String) : Except String FileSystem :=
  if fs.isPresent path then .error ("open " ++ path ++ ": file exists")
  else
    match fs.refused.lookup path with
    | some reason => .error ("open " ++ path ++ ": " ++ reason)
    | none => .ok { fs with files := (path, []) :: fs.files }

/-- Go's `io.Copy` from an uploaded file into the open file at `path`: bytes are
copied until the upload is exhausted, a read fails or the space runs out; the
result is the number of bytes written with the first error met, and the file
holds the bytes written. -/
def FileSystem.Copy (fs : FileSystem) (path : String) (src : multipart.File) :
    (Int × Option String) × FileSystem :=
  let offered : List Nat :=
    match src.readError with
    | some (k, _) => src.data.take k
    | none => src.data
  let written : List Nat :=
    match fs.space with
    | some k => offered.take k
    | none => offered
  let err : Option String :=
    if written.length < offered.length then
      some ("write " ++ path ++ ": no space left on device")
    else src.readError.map (fun e => e.2)
  (((written.length : Int), err),
   { fs with
     files := (path, written) :: fs.files.filter (fun kv => kv.1 != path)
     space := fs.space.map (fun k => k - written.length) })

end os

namespace ess

/-- Modelled from the spec: `ess.IsDir` of the essentials library: the path
names an existing directory. -/
def IsDir (fs : os.FileSystem) (path : String) : Bool := fs.dirs.contains path

end ess

namespace ahttp

/-- Modelled from the spec: the constant `ahttp.HeaderAcceptEncoding` (declared
outside `request.go`), the name of the `Accept-Encoding` header. -/
def HeaderAcceptEncoding : String := "Accept-Encoding"

/-- Modelled from the spec: `ahttp.ContentType`, a negotiated or parsed content
type. -/
structure ContentType where
  Mime : String := ""
  Exts : List String := []
  deriving DecidableEq, Repr

/-- Modelled from the spec: `ahttp.AcceptSpec`, one entry of an accept header. -/
structure AcceptSpec where
  Raw : String := ""
  Value : String := ""
  deriving DecidableEq, Repr

/-- Modelled from the spec: `ahttp.Locale`, a negotiated locale. -/
structure Locale where
  Raw : String := ""
  Language : String := ""
  Region : String := ""
  deriving DecidableEq, Repr

/-- The struct `URLParam`: a single URL parameter value. -/
structure URLParam where
  Key : String
  Value : String
  deriving DecidableEq, Repr

/-- The type `URLParams`, a slice of `URLParam`; the empty list is the nil
slice. -/
abbrev URLParams := List URLParam

/-- Go's `map[string]string`: the value bound to each key, if any. -/
abbrev StringMap := String → Option String

/-- The map `make(map[string]string)`. -/
def StringMap.empty : StringMap := fun _ => none

/-- The map after the assignment `m[key] = value`. -/
def StringMap.set (m : StringMap) (key value : String) : StringMap :=
  fun k => if k = key then some value else m k

/-- The method `URLParams.Get`: the loop over the entries returns the value of
an entry as soon as its key is the given one, and the empty string after the
loop. -/
def URLParams.Get : URLParams → String → String
  | [], _ => ""
  | p :: u, key => if p.Key == key then p.Value else URLParams.Get u key

/-- The method `URLParams.ToMap`: every entry, in order, is assigned into a
fresh map. -/
def URLParams.ToMap (u : URLParams) : StringMap :=
  u.foldl (fun ps p => ps.set p.Key p.Value) StringMap.empty

/-- The struct `Request`. The pointer fields are `Option`s, `none` being nil;
the default of every field is its Go zero value. -/
structure Request where
  Scheme : String := ""
  Host : String := ""
  Proto : String := ""
  Method : String := ""
  Path : String := ""
  Header : http.Header := []
  URLParams : URLParams := []
  IsGzipAccepted : Bool := false
  raw : Option http.Request := none
  locale : Option Locale := none
  contentType : Option ContentType := none
  acceptContentType : Option ContentType := none
  acceptEncoding : Option AcceptSpec := none
  deriving DecidableEq, Repr

/-- The functions of package ahttp that `request.go` calls and that are declared
in other files, taken as parameters: `Scheme`, `Host`, `NegotiateContentType`,
`ParseContentType`, `ParseAcceptEncoding` (a slice, `none` being nil),
`AcceptSpecs.MostQualified` and `NegotiateLocale`. -/
structure Package where
  Scheme : http.Request → String
  Host : http.Request → String
  NegotiateContentType : Option http.Request → Option ContentType
  ParseContentType : Option http.Request → Option ContentType
  ParseAcceptEncoding : Option http.Request → Option (List AcceptSpec)
  MostQualified : List AcceptSpec → Option AcceptSpec
  NegotiateLocale : Option http.Request → Option Locale

/-- The function `ParseRequest`: it populates the given wrapper from the Go
HTTP request and returns it. The last two assignments go through `req.raw` to
the URL of the raw request. -/
def ParseRequest (pkg : Package) (r : http.Request) (req : Request) : Request :=
  let req1 := { req with Scheme := pkg.Scheme r }
  let req2 := { req1 with Host := pkg.Host r }
  let req3 := { req2 with Proto := r.Proto }
  let req4 := { req3 with Method := r.Method }
  let req5 := { req4 with Path := r.URL.Path }
  let req6 := { req5 with Header := r.Header }
  let req7 :=
    match r.Header.index HeaderAcceptEncoding with
    | v :: _ => { req6 with IsGzipAccepted := decide (strings.Index v "gzip" ≥ 0) }
    | [] => req6
  { req7 with
    raw := some { r with URL := { r.URL with Scheme := req7.Scheme, Host := req7.Host } } }

/-- The method `Request.Unwrap`. -/
def Request.Unwrap (r : Request) : Option http.Request := r.raw

/-- A call on one of the negotiation and parse functions of the package. -/
inductive Call where
  | NegotiateContentType
  | ParseContentType
  | ParseAcceptEncoding
  | MostQualified
  | NegotiateLocale
  deriving DecidableEq, Repr

/-- What a getter of the wrapper gives: the returned pointer, the wrapper after
the call, and the package functions the call invoked, in order. -/
structure Got (α : Type) where
  value : Option α
  req : Request
  calls : List Call

/-- The method `Request.AcceptContentType`. -/
def Request.AcceptContentType (pkg : Package) (r : Request) : Got ContentType :=
  match r.acceptContentType with
  | none =>
    let r1 := { r with acceptContentType := pkg.NegotiateContentType r.Unwrap }
    ⟨r1.acceptContentType, r1, [.NegotiateContentType]⟩
  | some v => ⟨some v, r, []⟩

/-- The method `Request.SetAcceptContentType`. -/
def Request.SetAcceptContentType (r : Request) (contentType : Option ContentType) : Request :=
  { r with acceptContentType := contentType }

/-- The method `Request.AcceptEncoding`. -/
def Request.AcceptEncoding (pkg : Package) (r : Request) : Got AcceptSpec :=
  match r.acceptEncoding with
  | none =>
    match pkg.ParseAcceptEncoding r.Unwrap with
    | some specs =>
      let r1 := { r with acceptEncoding := pkg.MostQualified specs }
      ⟨r1.acceptEncoding, r1, [.ParseAcceptEncoding, .MostQualified]⟩
    | none => ⟨r.acceptEncoding, r, [.ParseAcceptEncoding]⟩
  | some v => ⟨some v, r, []⟩

/-- The method `Request.SetAcceptEncoding`. -/
def Request.SetAcceptEncoding (r : Request) (encoding : Option AcceptSpec) : Request :=
  { r with acceptEncoding := encoding }

/-- The method `Request.Locale`. -/
def Request.Locale (pkg : Package) (r : Request) : Got ahttp.Locale :=
  match r.locale with
  | none =>
    let r1 := { r with locale := pkg.NegotiateLocale r.Unwrap }
    ⟨r1.locale, r1, [.NegotiateLocale]⟩
  | some v => ⟨some v, r, []⟩

/-- The method `Request.SetLocale`. -/
def Request.SetLocale (r : Request) (locale : Option ahttp.Locale) : Request :=
  { r with locale := locale }

/-- The method `Request.PathValue`. -/
def Request.PathValue (r : Request) (key : String) : String :=
  URLParams.Get r.URLParams key

/-- The method `Request.Reset`: one assignment per field. -/
def Request.Reset (r : Request) : Request :=
  let r1 := { r with Scheme := "" }
  let r2 := { r1 with Host := "" }
  let r3 := { r2 with Proto := "" }
  let r4 := { r3 with Method := "" }
  let r5 := { r4 with Path := "" }
  let r6 := { r5 with Header := [] }
  let r7 := { r6 with URLParams := [] }
  let r8 := { r7 with IsGzipAccepted := false }
  let r9 := { r8 with raw := none }
  let r10 := { r9 with locale := none }
  let r11 := { r10 with contentType := none }
  let r12 := { r11 with acceptContentType := none }
  { r12 with acceptEncoding := none }

/-- A getter called `n` times in a row: the returned pointers, the wrapper
after the last call, and all the package functions invoked, in order. -/
def repeatedly {α : Type} (getter : Request → Got α) :
    Nat → Request → List (Option α) × Request × List Call
  | 0, r => ([], r, [])
  | n + 1, r =>
    let g := getter r
    let rest := repeatedly getter n g.req
    (g.value :: rest.1, rest.2.1, g.calls ++ rest.2.2)

/-- The method `Request.ContentType`. -/
def Request.ContentType (pkg : Package) (r : Request) : Got ahttp.ContentType :=
  match r.contentType with
  | none =>
    let r1 := { r with contentType := pkg.ParseContentType r.Unwrap }
    ⟨r1.contentType, r1, [.ParseContentType]⟩
  | some v => ⟨some v, r, []⟩

/-- The method `Request.SetContentType`. -/
def Request.SetContentType (r : Request) (contType : Option ahttp.ContentType) : Request :=
  { r with contentType := contType }

/-- The four lazy getters of the wrapper. -/
inductive Getter where
  | AcceptContentType
  | AcceptEncoding
  | ContentType
  | Locale
  deriving DecidableEq, Repr

/-- The package function a getter computes its value with. -/
def Getter.function : Getter → Call
  | .AcceptContentType => .NegotiateContentType
  | .AcceptEncoding => .ParseAcceptEncoding
  | .ContentType => .ParseContentType
  | .Locale => .NegotiateLocale

/-- A pointer returned by one of the getters. -/
inductive Value where
  | contentType (v : Option ahttp.ContentType)
  | acceptSpec (v : Option ahttp.AcceptSpec)
  | locale (v : Option ahttp.Locale)
  deriving DecidableEq, Repr

/-- The returned pointer is nil. -/
def Value.isNil : Value → Bool
  | .contentType v => v.isNone
  | .acceptSpec v => v.isNone
  | .locale v => v.isNone

/-- One getter call as seen from outside: the getter, the pointer it returned
and the package functions it invoked. -/
structure Step where
  getter : Getter
  value : Value
  calls : List Call
  deriving DecidableEq, Repr

/-- The call of the given getter on the wrapper: what is seen of it, and the
wrapper after it. -/
def Request.call (pkg : Package) (r : Request) : Getter → Step × Request
  | .AcceptContentType =>
    (⟨.AcceptContentType, .contentType (r.AcceptContentType pkg).value,
      (r.AcceptContentType pkg).calls⟩, (r.AcceptContentType pkg).req)
  | .AcceptEncoding =>
    (⟨.AcceptEncoding, .acceptSpec (r.AcceptEncoding pkg).value,
      (r.AcceptEncoding pkg).calls⟩, (r.AcceptEncoding pkg).req)
  | .ContentType =>
    (⟨.ContentType, .contentType (r.ContentType pkg).value,
      (r.ContentType pkg).calls⟩, (r.ContentType pkg).req)
  | .Locale =>
    (⟨.Locale, .locale (r.Locale pkg).value, (r.Locale pkg).calls⟩, (r.Locale pkg).req)

/-- A sequence of getter calls, in any order, on the wrapper: the calls as seen
from outside, oldest first, and the wrapper after the last. -/
def run (pkg : Package) : List Getter → Request → List Step × Request
  | [], r => ([], r)
  | g :: gs, r =>
    let first := r.call pkg g
    let rest := run pkg gs first.2
    (first.1 :: rest.1, rest.2)

/-- All the package functions invoked by a sequence of getter calls, in
order. -/
def invoked : List Step → List Call
  | [] => []
  | s :: ss => s.calls ++ invoked ss

/-- The wrapper holds a value for the getter. -/
def Request.holds (r : Request) : Getter → Bool
  | .AcceptContentType => r.acceptContentType.isSome
  | .AcceptEncoding => r.acceptEncoding.isSome
  | .ContentType => r.contentType.isSome
  | .Locale => r.locale.isSome

/-- An operation on a file or on the multipart form made by `SaveFile`. -/
inductive FileCall where
  | FormFile (key : String)
  | OpenFile (path : String)
  | Copy (path : String) (n : Nat)
  | CloseFile (path : String)
  | CloseUpload
  deriving DecidableEq, Repr

/-- The function `saveFile`: the destination is opened for exclusive creation;
when that fails, 0 and the error, prefixed with "ahttp: ", are returned;
otherwise the result of the copy is returned, bytes written and error, and the
file is closed. -/
def saveFile (fs : os.FileSystem) (r : multipart.File) (destFile : String) :
    (Int × Option String) × os.FileSystem × List FileCall :=
  match fs.OpenFile destFile with
  | .error err => ((0, some ("ahttp: " ++ err)), fs, [.OpenFile destFile])
  | .ok fs1 =>
    let res := fs1.Copy destFile r
    (res.1, res.2,
      [.OpenFile destFile, .Copy destFile res.1.1.toNat, .CloseFile destFile])

/-- How a `SaveFile` call ends: the returned pair of the bytes written and the
error (`none` when the call panicked on a nil raw request), the file system
after the call, and the operations made, in order. -/
structure SaveResult where
  ret : Option (Int × Option String)
  fs : os.FileSystem
  calls : List FileCall
  deriving DecidableEq, Repr

/-- The method `Request.SaveFile`. -/
def Request.SaveFile (r : Request) (fs : os.FileSystem) (key dstFile : String) :
    SaveResult :=
  if ess.IsStrEmpty dstFile || ess.IsStrEmpty key then
    ⟨some (0, some "ahttp: key or dstFile is empty"), fs, []⟩
  else if ess.IsDir fs dstFile then
    ⟨some (0, some "ahttp: dstFile should not be a directory"), fs, []⟩
  else
    match r.Unwrap with
    | none => ⟨none, fs, []⟩
    | some raw =>
      match raw.FormFile key with
      | .error err => ⟨some (0, some err), fs, [.FormFile key]⟩
      | .ok uploadedFile =>
        let res := saveFile fs uploadedFile dstFile
        ⟨some res.1, res.2.1, [.FormFile key] ++ res.2.2 ++ [.CloseUpload]⟩

/-- The lookup as the documentation words it: the value of the first entry
whose key is the given one, the empty string when there is no such entry. -/
def firstValue (u : URLParams) (key : String) : String :=
  match u.find? (fun p => p.Key == key) with
  | some p => p.Value
  | none => ""

/-! ### Sample requests -/

/-- A package whose parse of the accept encoding follows the header of the raw
request: nil without an `Accept-Encoding` header, one spec per value with
one. -/
def samplePackage : Package where
  Scheme := fun _ => "http"
  Host := fun r => r.URL.Host
  NegotiateContentType := fun _ => some { Mime := "text/html" }
  ParseContentType := fun _ => some { Mime := "text/plain" }
  ParseAcceptEncoding := fun raw =>
    match raw with
    | none => none
    | some r =>
      match r.Header.index HeaderAcceptEncoding with
      | [] => none
      | vs => some (vs.map fun v => { Raw := v, Value := v })
  MostQualified := fun specs => specs.head?
  NegotiateLocale := fun _ => some { Raw := "en-US", Language := "en", Region := "US" }

/-- A raw request that announces gzip. -/
def gzipRaw : http.Request where
  RequestURI := "/index.html"
  Method := "GET"
  Proto := "HTTP/1.1"
  URL := { Path := "/index.html" }
  Header := [("Accept-Encoding", ["deflate, gzip;q=0.8", "br"])]

/-- A raw request without an `Accept-Encoding` header. -/
def plainRaw : http.Request where
  RequestURI := "/upload"
  Method := "POST"
  Proto := "HTTP/1.1"
  URL := { Path := "/upload" }
  Header := [("Accept", ["text/html"])]
  MultipartFiles := [("avatar", { data := [137, 80, 78, 71] }),
                     ("broken", { data := [1, 2, 3, 4, 5], readError := some (2, "unexpected EOF") })]

/-- A wrapper that still carries the state of an earlier request. -/
def staleRequest : Request where
  Scheme := "https"
  Host := "example.com"
  Path := "/old"
  URLParams := [⟨"id", "7"⟩]
  IsGzipAccepted := true
  raw := some gzipRaw
  locale := some { Raw := "de" }
  acceptEncoding := some { Raw := "gzip", Value := "gzip" }

/-- URL parameters in which the key "id" occurs twice with different values. -/
def repeatedParams : URLParams := [⟨"id", "1"⟩, ⟨"name", "x"⟩, ⟨"id", "2"⟩]

/-- A file system with one directory and one file. -/
def sampleFS : os.FileSystem where
  dirs := ["/tmp/uploads"]
  files := [("/tmp/uploads/old.png", [1, 2, 3])]

/-- The same file system, where nothing can be created under "/nowhere" and
three bytes of space are left. -/
def tightFS : os.FileSystem where
  dirs := ["/tmp/uploads"]
  files := [("/tmp/uploads/old.png", [1, 2, 3])]
  refused := [("/nowhere/a.png", "no such file or directory")]
  space := some 3

end ahttp

namespace aah

/-! ## The anonymous and the unresolved route -/

/-- C1: on a route whose auth policy is "anonymous" the dispatcher returns
flowCont, leaves the whole context (session store and flag, subject, reply) as
it was, and calls no collaborator: no scheme is resolved, nothing is
authenticated or authorized, no reply is written. -/
theorem handleAuthcAndAuthz_anonymous (m : security.Manager) (ctx : Context)
    (h : ctx.route.Auth = "anonymous") :
    (handleAuthcAndAuthz m ctx).flow = some flowCont ∧
    (handleAuthcAndAuthz m ctx).ctx = ctx ∧
    (handleAuthcAndAuthz m ctx).log = [] := by
  simp [handleAuthcAndAuthz, h]

/-- Witness of C1 on a request for a public page. -/
theorem handleAuthcAndAuthz_anonymous_witness :
    anonymousCtx.route.Auth = "anonymous" ∧
    (handleAuthcAndAuthz (managerOf (formScheme sampleForm (none, none))) anonymousCtx).flow
      = some flowCont ∧
    (handleAuthcAndAuthz (managerOf (formScheme sampleForm (none, none))) anonymousCtx).ctx
      = anonymousCtx ∧
    (handleAuthcAndAuthz (managerOf (formScheme sampleForm (none, none))) anonymousCtx).log
      = [] :=
  ⟨rfl, handleAuthcAndAuthz_anonymous _ anonymousCtx rfl⟩

/-- C2: on a route whose auth policy is not "anonymous" and names a scheme the
security manager does not resolve, the dispatcher returns flowCont with the
whole context (session, subject, reply) unchanged; the one call it makes is the
scheme lookup, so no reply is written. -/
theorem handleAuthcAndAuthz_unresolved (m : security.Manager) (ctx : Context)
    (h : ctx.route.Auth ≠ "anonymous") (hs : m.GetAuthScheme ctx.route.Auth = none) :
    (handleAuthcAndAuthz m ctx).flow = some flowCont ∧
    (handleAuthcAndAuthz m ctx).ctx = ctx ∧
    (handleAuthcAndAuthz m ctx).log = [Event.getAuthScheme ctx.route.Auth] := by
  simp [handleAuthcAndAuthz, h, hs]

/-- Witness of C2 on a route that names an unconfigured scheme. -/
theorem handleAuthcAndAuthz_unresolved_witness :
    unknownSchemeCtx.route.Auth ≠ "anonymous" ∧
    (managerOf (formScheme sampleForm (none, none))).GetAuthScheme unknownSchemeCtx.route.Auth
      = none ∧
    (handleAuthcAndAuthz (managerOf (formScheme sampleForm (none, none))) unknownSchemeCtx).flow
      = some flowCont ∧
    (handleAuthcAndAuthz (managerOf (formScheme sampleForm (none, none))) unknownSchemeCtx).ctx
      = unknownSchemeCtx ∧
    (handleAuthcAndAuthz (managerOf (formScheme sampleForm (none, none))) unknownSchemeCtx).log
      = [Event.getAuthScheme "ldap"] :=
  ⟨by decide, rfl, handleAuthcAndAuthz_unresolved _ unknownSchemeCtx (by decide) rfl⟩

/-! ## The branches of the two flows -/

/-- The dispatch on an anonymous route. -/
theorem handleAuthcAndAuthz_anon_eq (m : security.Manager) (ctx : Context)
    (h : ctx.route.Auth = "anonymous") :
    handleAuthcAndAuthz m ctx = ⟨some flowCont, ctx, []⟩ := by
  simp [handleAuthcAndAuthz, h]

/-- The dispatch on a route whose scheme is not resolved. -/
theorem handleAuthcAndAuthz_nil_eq (m : security.Manager) (ctx : Context)
    (h : ctx.route.Auth ≠ "anonymous") (hs : m.GetAuthScheme ctx.route.Auth = none) :
    handleAuthcAndAuthz m ctx = ⟨some flowCont, ctx, [.getAuthScheme ctx.route.Auth]⟩ := by
  simp [handleAuthcAndAuthz, h, hs]


/-- Form flow, authenticated subject, cached `AuthenticationInfo`: the cached
pointer is restored and the authorization recomputed. -/
theorem doForm_restore (s : scheme.Schemer) (ctx : Context) (f : scheme.FormAuth)
    (p : Option authc.AuthenticationInfo)
    (hc : s.concrete = .FormAuth f) (ha : ctx.subject.IsAuthenticated = true)
    (hg : ctx.Session.Get keyAuthcInfo = some (.authcInfo p)) :
    doFormAuthcAndAuthz s ctx =
      ⟨some flowCont,
       { ctx with subject := { ctx.subject with
           AuthenticationInfo := p, AuthorizationInfo := s.DoAuthorizationInfo p } },
       [.doAuthorizationInfo p]⟩ := by
  have hk : ctx.Session.IsKeyExists keyAuthcInfo = true := by
    simp only [session.Session.Get] at hg
    simp [session.Session.IsKeyExists, hg]
  simp [doFormAuthcAndAuthz, hc, ha, hk, hg, Context.setAuthenticationInfo,
    Context.setAuthorizationInfo]

/-- Form flow, authenticated subject, a value of another type under the cache
key: the type assertion panics. -/
theorem doForm_restore_panic (s : scheme.Schemer) (ctx : Context) (f : scheme.FormAuth)
    (v : String)
    (hc : s.concrete = .FormAuth f) (ha : ctx.subject.IsAuthenticated = true)
    (hg : ctx.Session.Get keyAuthcInfo = some (.other v)) :
    doFormAuthcAndAuthz s ctx = ⟨none, ctx, []⟩ := by
  have hk : ctx.Session.IsKeyExists keyAuthcInfo = true := by
    simp only [session.Session.Get] at hg
    simp [session.Session.IsKeyExists, hg]
  simp [doFormAuthcAndAuthz, hc, ha, hk, hg]

/-- Form flow, authenticated subject, nothing under the cache key. -/
theorem doForm_no_cache (s : scheme.Schemer) (ctx : Context) (f : scheme.FormAuth)
    (hc : s.concrete = .FormAuth f) (ha : ctx.subject.IsAuthenticated = true)
    (hg : ctx.Session.Get keyAuthcInfo = none) :
    doFormAuthcAndAuthz s ctx = ⟨some flowCont, ctx, []⟩ := by
  have hk : ctx.Session.IsKeyExists keyAuthcInfo = false := by
    simp only [session.Session.Get] at hg
    simp [session.Session.IsKeyExists, hg]
  simp [doFormAuthcAndAuthz, hc, ha, hk]

/-- Form flow, unauthenticated subject, the redirect-to-login branch. -/
theorem doForm_login (s : scheme.Schemer) (ctx : Context) (f : scheme.FormAuth)
    (hc : s.concrete = .FormAuth f) (ha : ctx.subject.IsAuthenticated = false)
    (hb : f.LoginSubmitURL ≠ ctx.route.Path ∧ ctx.Req.Method ≠ ahttp.MethodPost) :
    doFormAuthcAndAuthz s ctx =
      ⟨some flowStop,
       { ctx with reply := ctx.reply ++ [.Redirect
           (if f.LoginURL = ctx.Req.Path then f.LoginURL
            else f.LoginURL ++ "?_rt=" ++ ctx.Req.Raw.RequestURI)] },
       [.writeReply (ctx.reply ++ [.Redirect
           (if f.LoginURL = ctx.Req.Path then f.LoginURL
            else f.LoginURL ++ "?_rt=" ++ ctx.Req.Raw.RequestURI)])]⟩ := by
  by_cases hl : f.LoginURL = ctx.Req.Path <;>
    simp [doFormAuthcAndAuthz, hc, ha, hb, hl, Context.replyCall]

/-- Form flow, unauthenticated subject, authentication reached and failed with
`ErrAuthenticationFailed`. -/
theorem doForm_failed (s : scheme.Schemer) (ctx : Context) (f : scheme.FormAuth)
    (hc : s.concrete = .FormAuth f) (ha : ctx.subject.IsAuthenticated = false)
    (hb : f.LoginSubmitURL = ctx.route.Path ∨ ctx.Req.Method = ahttp.MethodPost)
    (he : (s.DoAuthenticate (s.ExtractAuthenticationToken ctx.Req)).2
      = some .ErrAuthenticationFailed) :
    doFormAuthcAndAuthz s ctx =
      ⟨some flowStop,
       { ctx with reply := ctx.reply ++
           [.Redirect (f.LoginFailureURL ++ "&_rt=" ++ ctx.Req.Raw.FormValue "_rt")] },
       [.preAuth, .extractAuthenticationToken,
        .doAuthenticate (s.ExtractAuthenticationToken ctx.Req),
        .writeReply (ctx.reply ++
           [.Redirect (f.LoginFailureURL ++ "&_rt=" ++ ctx.Req.Raw.FormValue "_rt")])]⟩ := by
  have hb2 : (f.LoginSubmitURL != ctx.route.Path && ctx.Req.Method != ahttp.MethodPost)
      = false := by
    rcases hb with h | h <;> simp [h]
  simp [doFormAuthcAndAuthz, hc, ha, hb2, he, Context.replyCall]

/-- Form flow, unauthenticated subject, authentication reached, no
`ErrAuthenticationFailed` and a nil `AuthenticationInfo`: the session is flagged
authenticated and the credential scrub dereferences the nil pointer. -/
theorem doForm_nil (s : scheme.Schemer) (ctx : Context) (f : scheme.FormAuth)
    (hc : s.concrete = .FormAuth f) (ha : ctx.subject.IsAuthenticated = false)
    (hb : f.LoginSubmitURL = ctx.route.Path ∨ ctx.Req.Method = ahttp.MethodPost)
    (he : (s.DoAuthenticate (s.ExtractAuthenticationToken ctx.Req)).2
      ≠ some .ErrAuthenticationFailed)
    (hi : (s.DoAuthenticate (s.ExtractAuthenticationToken ctx.Req)).1 = none) :
    doFormAuthcAndAuthz s ctx =
      ⟨none,
       { ctx with subject :=
           { AuthenticationInfo := none
             AuthorizationInfo := s.DoAuthorizationInfo none
             Session := { ctx.subject.Session with IsAuthenticated := true } } },
       [.preAuth, .extractAuthenticationToken,
        .doAuthenticate (s.ExtractAuthenticationToken ctx.Req),
        .doAuthorizationInfo none]⟩ := by
  have hb2 : (f.LoginSubmitURL != ctx.route.Path && ctx.Req.Method != ahttp.MethodPost)
      = false := by
    rcases hb with h | h <;> simp [h]
  simp [doFormAuthcAndAuthz, hc, ha, hb2, he, hi, Context.setAuthenticationInfo,
    Context.setAuthorizationInfo, Context.setSession, Context.Session]

/-- Form flow, unauthenticated subject, authentication reached, no
`ErrAuthenticationFailed` and an `AuthenticationInfo`: the login is taken as
successful. -/
theorem doForm_success (s : scheme.Schemer) (ctx : Context) (f : scheme.FormAuth)
    (a : authc.AuthenticationInfo)
    (hc : s.concrete = .FormAuth f) (ha : ctx.subject.IsAuthenticated = false)
    (hb : f.LoginSubmitURL = ctx.route.Path ∨ ctx.Req.Method = ahttp.MethodPost)
    (he : (s.DoAuthenticate (s.ExtractAuthenticationToken ctx.Req)).2
      ≠ some .ErrAuthenticationFailed)
    (hi : (s.DoAuthenticate (s.ExtractAuthenticationToken ctx.Req)).1 = some a) :
    doFormAuthcAndAuthz s ctx =
      ⟨some flowStop,
       { ctx with
         subject :=
           { AuthenticationInfo := some { a with Credential := [] }
             AuthorizationInfo := s.DoAuthorizationInfo (some a)
             Session := session.Session.Set
               { ctx.subject.Session with IsAuthenticated := true } keyAuthcInfo
               (.authcInfo (some { a with Credential := [] })) }
         reply := ctx.reply ++ [.Redirect
           (if f.IsAlwaysToDefaultTarget = true ∨ ctx.Req.Raw.FormValue "_rt" = ""
            then f.DefaultTargetURL else ctx.Req.Raw.FormValue "_rt")] },
       [.preAuth, .extractAuthenticationToken,
        .doAuthenticate (s.ExtractAuthenticationToken ctx.Req),
        .doAuthorizationInfo (some a), .postAuth,
        .writeReply (ctx.reply ++ [.Redirect
           (if f.IsAlwaysToDefaultTarget = true ∨ ctx.Req.Raw.FormValue "_rt" = ""
            then f.DefaultTargetURL else ctx.Req.Raw.FormValue "_rt")])]⟩ := by
  have hb2 : (f.LoginSubmitURL != ctx.route.Path && ctx.Req.Method != ahttp.MethodPost)
      = false := by
    rcases hb with h | h <;> simp [h]
  by_cases ht : f.IsAlwaysToDefaultTarget = true ∨ ctx.Req.Raw.FormValue "_rt" = "" <;>
    simp [doFormAuthcAndAuthz, hc, ha, hb2, he, hi, ht, Context.setAuthenticationInfo,
      Context.setAuthorizationInfo, Context.setSession, Context.Session, Context.replyCall,
      ess.IsStrEmpty]

/-- Form flow entered with a scheme whose dynamic type is not `*scheme.FormAuth`:
the type assertion panics. -/
theorem doForm_assert_panic (s : scheme.Schemer) (ctx : Context)
    (hc : ∀ f, s.concrete ≠ .FormAuth f) :
    doFormAuthcAndAuthz s ctx = ⟨none, ctx, []⟩ := by
  unfold doFormAuthcAndAuthz
  split
  · rename_i f h
    exact absurd h (hc f)
  · rfl

/-- Generic flow, `ErrAuthenticationFailed` under a basic scheme. -/
theorem doAuthc_failed_basic (s : scheme.Schemer) (ctx : Context) (b : scheme.BasicAuth)
    (hk : s.Scheme = "basic") (hc : s.concrete = .BasicAuth b)
    (he : (s.DoAuthenticate (s.ExtractAuthenticationToken ctx.Req)).2
      = some .ErrAuthenticationFailed) :
    doAuthcAndAuthz s ctx =
      ⟨some flowStop,
       { ctx with reply := ctx.reply ++ [.Unauthorized,
           .Header ahttp.HeaderWWWAuthenticate ("Basic realm=\"" ++ b.RealmName ++ "\"")] },
       [.preAuth, .extractAuthenticationToken,
        .doAuthenticate (s.ExtractAuthenticationToken ctx.Req),
        .writeReply (ctx.reply ++ [.Unauthorized,
           .Header ahttp.HeaderWWWAuthenticate ("Basic realm=\"" ++ b.RealmName ++ "\"")])]⟩ := by
  simp [doAuthcAndAuthz, hk, hc, he, Context.replyCall]

/-- Generic flow, `ErrAuthenticationFailed` under a scheme of kind basic whose
dynamic type is not `*scheme.BasicAuth`: the type assertion panics. -/
theorem doAuthc_failed_assert_panic (s : scheme.Schemer) (ctx : Context)
    (hk : s.Scheme = "basic") (hc : ∀ b, s.concrete ≠ .BasicAuth b)
    (he : (s.DoAuthenticate (s.ExtractAuthenticationToken ctx.Req)).2
      = some .ErrAuthenticationFailed) :
    doAuthcAndAuthz s ctx =
      ⟨none, { ctx with reply := ctx.reply ++ [.Unauthorized] },
       [.preAuth, .extractAuthenticationToken,
        .doAuthenticate (s.ExtractAuthenticationToken ctx.Req)]⟩ := by
  cases hcc : s.concrete with
  | BasicAuth b => exact absurd hcc (hc b)
  | FormAuth f => simp [doAuthcAndAuthz, hk, he, hcc, Context.replyCall]
  | custom => simp [doAuthcAndAuthz, hk, he, hcc, Context.replyCall]

/-- Generic flow, `ErrAuthenticationFailed` under a scheme of another kind. -/
theorem doAuthc_failed_other (s : scheme.Schemer) (ctx : Context)
    (hk : s.Scheme ≠ "basic")
    (he : (s.DoAuthenticate (s.ExtractAuthenticationToken ctx.Req)).2
      = some .ErrAuthenticationFailed) :
    doAuthcAndAuthz s ctx =
      ⟨some flowStop, { ctx with reply := ctx.reply ++ [.Unauthorized] },
       [.preAuth, .extractAuthenticationToken,
        .doAuthenticate (s.ExtractAuthenticationToken ctx.Req),
        .writeReply (ctx.reply ++ [.Unauthorized])]⟩ := by
  simp [doAuthcAndAuthz, hk, he, Context.replyCall]

/-- Generic flow, no `ErrAuthenticationFailed` and a nil `AuthenticationInfo`:
the session is flagged authenticated and the credential scrub dereferences the
nil pointer. -/
theorem doAuthc_nil (s : scheme.Schemer) (ctx : Context)
    (he : (s.DoAuthenticate (s.ExtractAuthenticationToken ctx.Req)).2
      ≠ some .ErrAuthenticationFailed)
    (hi : (s.DoAuthenticate (s.ExtractAuthenticationToken ctx.Req)).1 = none) :
    doAuthcAndAuthz s ctx =
      ⟨none,
       { ctx with subject :=
           { AuthenticationInfo := none
             AuthorizationInfo := s.DoAuthorizationInfo none
             Session := { ctx.subject.Session with IsAuthenticated := true } } },
       [.preAuth, .extractAuthenticationToken,
        .doAuthenticate (s.ExtractAuthenticationToken ctx.Req),
        .doAuthorizationInfo none]⟩ := by
  simp [doAuthcAndAuthz, he, hi, Context.setAuthenticationInfo,
    Context.setAuthorizationInfo, Context.setSession, Context.Session]

/-- Generic flow, no `ErrAuthenticationFailed` and an `AuthenticationInfo`: the
authentication is taken as successful. -/
theorem doAuthc_success (s : scheme.Schemer) (ctx : Context) (a : authc.AuthenticationInfo)
    (he : (s.DoAuthenticate (s.ExtractAuthenticationToken ctx.Req)).2
      ≠ some .ErrAuthenticationFailed)
    (hi : (s.DoAuthenticate (s.ExtractAuthenticationToken ctx.Req)).1 = some a) :
    doAuthcAndAuthz s ctx =
      ⟨some flowCont,
       { ctx with subject :=
           { AuthenticationInfo := some { a with Credential := [] }
             AuthorizationInfo := s.DoAuthorizationInfo (some a)
             Session := { ctx.subject.Session with IsAuthenticated := true } } },
       [.preAuth, .extractAuthenticationToken,
        .doAuthenticate (s.ExtractAuthenticationToken ctx.Req),
        .doAuthorizationInfo (some a), .postAuth]⟩ := by
  simp [doAuthcAndAuthz, he, hi, Context.setAuthenticationInfo,
    Context.setAuthorizationInfo, Context.setSession, Context.Session]

/-- The dispatch of a resolved scheme of kind form. -/
theorem handle_form (m : security.Manager) (ctx : Context) (s : scheme.Schemer)
    (h : ctx.route.Auth ≠ "anonymous") (hs : m.GetAuthScheme ctx.route.Auth = some s)
    (hk : s.Scheme = "form") :
    handleAuthcAndAuthz m ctx =
      { doFormAuthcAndAuthz s ctx with
        log := .getAuthScheme ctx.route.Auth :: (doFormAuthcAndAuthz s ctx).log } := by
  simp [handleAuthcAndAuthz, h, hs, hk]

/-- The dispatch of a resolved scheme of another kind. -/
theorem handle_generic (m : security.Manager) (ctx : Context) (s : scheme.Schemer)
    (h : ctx.route.Auth ≠ "anonymous") (hs : m.GetAuthScheme ctx.route.Auth = some s)
    (hk : s.Scheme ≠ "form") :
    handleAuthcAndAuthz m ctx =
      { doAuthcAndAuthz s ctx with
        log := .getAuthScheme ctx.route.Auth :: (doAuthcAndAuthz s ctx).log } := by
  simp [handleAuthcAndAuthz, h, hs, hk]

/-- The form flow returns flowCont only to an authenticated subject, and leaves
the session flag set. -/
theorem doForm_cont_authenticated (s : scheme.Schemer) (ctx : Context)
    (h : (doFormAuthcAndAuthz s ctx).flow = some flowCont) :
    ctx.subject.IsAuthenticated = true ∧
    (doFormAuthcAndAuthz s ctx).ctx.Session.IsAuthenticated = true := by
  by_cases hc : ∃ f, s.concrete = .FormAuth f
  · obtain ⟨f, hc⟩ := hc
    by_cases ha : ctx.subject.IsAuthenticated = true
    · refine ⟨ha, ?_⟩
      cases hg : ctx.Session.Get keyAuthcInfo with
      | none => rw [doForm_no_cache s ctx f hc ha hg]; exact ha
      | some v =>
        cases v with
        | authcInfo p => rw [doForm_restore s ctx f p hc ha hg]; exact ha
        | other v => rw [doForm_restore_panic s ctx f v hc ha hg] at h; simp at h
    · have ha : ctx.subject.IsAuthenticated = false := by simpa using ha
      exfalso
      by_cases hb : f.LoginSubmitURL ≠ ctx.route.Path ∧ ctx.Req.Method ≠ ahttp.MethodPost
      · rw [doForm_login s ctx f hc ha hb] at h; simp at h
      · have hb : f.LoginSubmitURL = ctx.route.Path ∨ ctx.Req.Method = ahttp.MethodPost := by
          by_contra hn
          exact hb ⟨fun h1 => hn (Or.inl h1), fun h2 => hn (Or.inr h2)⟩
        by_cases he : (s.DoAuthenticate (s.ExtractAuthenticationToken ctx.Req)).2
            = some .ErrAuthenticationFailed
        · rw [doForm_failed s ctx f hc ha hb he] at h; simp at h
        · cases hi : (s.DoAuthenticate (s.ExtractAuthenticationToken ctx.Req)).1 with
          | none => rw [doForm_nil s ctx f hc ha hb he hi] at h; simp at h
          | some a => rw [doForm_success s ctx f a hc ha hb he hi] at h; simp at h
  · have hc : ∀ f, s.concrete ≠ .FormAuth f := fun f hf => hc ⟨f, hf⟩
    rw [doForm_assert_panic s ctx hc] at h
    simp at h

/-- The generic flow returns flowCont only with the session flag set. -/
theorem doAuthc_cont_authenticated (s : scheme.Schemer) (ctx : Context)
    (h : (doAuthcAndAuthz s ctx).flow = some flowCont) :
    (doAuthcAndAuthz s ctx).ctx.Session.IsAuthenticated = true := by
  by_cases he : (s.DoAuthenticate (s.ExtractAuthenticationToken ctx.Req)).2
      = some .ErrAuthenticationFailed
  · exfalso
    by_cases hk : s.Scheme = "basic"
    · by_cases hc : ∃ b, s.concrete = .BasicAuth b
      · obtain ⟨b, hc⟩ := hc
        rw [doAuthc_failed_basic s ctx b hk hc he] at h; simp at h
      · have hc : ∀ b, s.concrete ≠ .BasicAuth b := fun b hb => hc ⟨b, hb⟩
        rw [doAuthc_failed_assert_panic s ctx hk hc he] at h; simp at h
    · rw [doAuthc_failed_other s ctx hk he] at h; simp at h
  · cases hi : (s.DoAuthenticate (s.ExtractAuthenticationToken ctx.Req)).1 with
    | none => rw [doAuthc_nil s ctx he hi] at h; simp at h
    | some a => rw [doAuthc_success s ctx a he hi]; rfl

/-- On a route whose auth policy resolves to a scheme, a dispatch that returns
flowCont leaves the session flagged as authenticated: a request on a protected
route never continues as unauthenticated. -/
theorem handleAuthcAndAuthz_cont_authenticated (m : security.Manager) (ctx : Context)
    (s : scheme.Schemer) (h : ctx.route.Auth ≠ "anonymous")
    (hs : m.GetAuthScheme ctx.route.Auth = some s)
    (hc : (handleAuthcAndAuthz m ctx).flow = some flowCont) :
    (handleAuthcAndAuthz m ctx).ctx.Session.IsAuthenticated = true := by
  by_cases hk : s.Scheme = "form"
  · rw [handle_form m ctx s h hs hk] at hc ⊢
    exact (doForm_cont_authenticated s ctx hc).2
  · rw [handle_generic m ctx s h hs hk] at hc ⊢
    exact doAuthc_cont_authenticated s ctx hc

/-- Under a form scheme the dispatcher never returns flowCont to an
unauthenticated subject. -/
theorem handleAuthcAndAuthz_form_never_cont (m : security.Manager) (ctx : Context)
    (s : scheme.Schemer) (h : ctx.route.Auth ≠ "anonymous")
    (hs : m.GetAuthScheme ctx.route.Auth = some s) (hk : s.Scheme = "form")
    (ha : ctx.subject.IsAuthenticated = false) :
    (handleAuthcAndAuthz m ctx).flow ≠ some flowCont := by
  intro hc
  rw [handle_form m ctx s h hs hk] at hc
  have := (doForm_cont_authenticated s ctx hc).1
  simp [ha] at this

/-- C3: the dispatcher does not return flowStop for every request of an
unauthenticated subject under a form scheme. On a login submission for which
DoAuthenticate returns a nil AuthenticationInfo with an error other than
ErrAuthenticationFailed, the route resolves to the form scheme and the subject
is unauthenticated, yet the dispatcher flags the session authenticated and then
panics on the nil pointer instead of returning. -/
theorem handleAuthcAndAuthz_form_nil_info_panics :
    loginSubmitCtx.route.Auth ≠ "anonymous" ∧
    loginSubmitCtx.subject.IsAuthenticated = false ∧
    (handleAuthcAndAuthz (managerOf (formScheme sampleForm (none, some backendDown)))
      loginSubmitCtx).flow = none ∧
    (handleAuthcAndAuthz (managerOf (formScheme sampleForm (none, some backendDown)))
      loginSubmitCtx).ctx.Session.IsAuthenticated = true ∧
    (handleAuthcAndAuthz (managerOf (formScheme sampleForm (none, some backendDown)))
      loginSubmitCtx).log =
        [.getAuthScheme "auth", .preAuth, .extractAuthenticationToken,
         .doAuthenticate {}, .doAuthorizationInfo none] := by
  refine ⟨by decide, rfl, ?_, ?_, ?_⟩ <;> rfl

/-- C4: an error other than ErrAuthenticationFailed is taken as a successful
authentication. With DoAuthenticate returning an AuthenticationInfo together
with a backend error, the generic flow returns flowCont with the session
flagged authenticated and the subject populated, and the form flow flags the
session, writes the session cache and redirects to the return target. -/
theorem other_error_is_taken_as_success :
    protectedGetCtx.Session.IsAuthenticated = false ∧
    (doAuthcAndAuthz (basicScheme "Corp" (some alice, some backendDown))
      protectedGetCtx).flow = some flowCont ∧
    (doAuthcAndAuthz (basicScheme "Corp" (some alice, some backendDown))
      protectedGetCtx).ctx.Session.IsAuthenticated = true ∧
    (doAuthcAndAuthz (basicScheme "Corp" (some alice, some backendDown))
      protectedGetCtx).ctx.subject.AuthenticationInfo = some { Principals := ["alice"] } ∧
    loginSubmitCtx.Session.IsAuthenticated = false ∧
    loginSubmitCtx.Session.Values = [] ∧
    (doFormAuthcAndAuthz (formScheme sampleForm (some alice, some backendDown))
      loginSubmitCtx).flow = some flowStop ∧
    (doFormAuthcAndAuthz (formScheme sampleForm (some alice, some backendDown))
      loginSubmitCtx).ctx.Session.IsAuthenticated = true ∧
    (doFormAuthcAndAuthz (formScheme sampleForm (some alice, some backendDown))
      loginSubmitCtx).ctx.Session.Values =
        [("_aahAuthcInfo", .authcInfo (some { Principals := ["alice"] }))] ∧
    (doFormAuthcAndAuthz (formScheme sampleForm (some alice, some backendDown))
      loginSubmitCtx).ctx.reply = [.Redirect "/dashboard"] := by
  refine ⟨rfl, ?_, ?_, ?_, rfl, rfl, ?_, ?_, ?_, ?_⟩ <;> decide

/-! ## Credential scrubbing -/

/-- Flagging a session authenticated does not touch its values. -/
theorem credentialFree_flag (s : session.Session) (b : Bool) :
    credentialFree { s with IsAuthenticated := b } = credentialFree s := rfl

/-- Caching a scrubbed `AuthenticationInfo` keeps a session free of
credentials. -/
theorem credentialFree_Set (s : session.Session) (key : String)
    (a : authc.AuthenticationInfo) (h : credentialFree s = true) :
    credentialFree (s.Set key (.authcInfo (some { a with Credential := [] }))) = true := by
  simp only [credentialFree, List.all_eq_true] at h
  simp only [credentialFree, session.Session.Set, List.all_cons, Bool.and_eq_true,
    List.all_eq_true, List.mem_filter]
  exact ⟨rfl, fun kv hkv => h kv hkv.1⟩

/-- What `Session.Get` finds right after `Session.Set` on the same key. -/
theorem Get_Set (s : session.Session) (key : String) (v : session.Value) :
    (s.Set key v).Get key = some v := by
  simp [session.Session.Get, session.Session.Set, List.lookup]

/-- The form flow keeps a session free of credentials. -/
theorem doForm_credentialFree (s : scheme.Schemer) (ctx : Context)
    (h : credentialFree ctx.Session = true) :
    credentialFree (doFormAuthcAndAuthz s ctx).ctx.Session = true := by
  by_cases hc : ∃ f, s.concrete = .FormAuth f
  · obtain ⟨f, hc⟩ := hc
    by_cases ha : ctx.subject.IsAuthenticated = true
    · cases hg : ctx.Session.Get keyAuthcInfo with
      | none => rw [doForm_no_cache s ctx f hc ha hg]; exact h
      | some v =>
        cases v with
        | authcInfo p => rw [doForm_restore s ctx f p hc ha hg]; exact h
        | other v => rw [doForm_restore_panic s ctx f v hc ha hg]; exact h
    · have ha : ctx.subject.IsAuthenticated = false := by simpa using ha
      by_cases hb : f.LoginSubmitURL ≠ ctx.route.Path ∧ ctx.Req.Method ≠ ahttp.MethodPost
      · rw [doForm_login s ctx f hc ha hb]; exact h
      · have hb : f.LoginSubmitURL = ctx.route.Path ∨ ctx.Req.Method = ahttp.MethodPost := by
          by_contra hn
          exact hb ⟨fun h1 => hn (Or.inl h1), fun h2 => hn (Or.inr h2)⟩
        by_cases he : (s.DoAuthenticate (s.ExtractAuthenticationToken ctx.Req)).2
            = some .ErrAuthenticationFailed
        · rw [doForm_failed s ctx f hc ha hb he]; exact h
        · cases hi : (s.DoAuthenticate (s.ExtractAuthenticationToken ctx.Req)).1 with
          | none => rw [doForm_nil s ctx f hc ha hb he hi]; exact h
          | some a =>
            rw [doForm_success s ctx f a hc ha hb he hi]
            exact credentialFree_Set _ keyAuthcInfo a h
  · have hc : ∀ f, s.concrete ≠ .FormAuth f := fun f hf => hc ⟨f, hf⟩
    rw [doForm_assert_panic s ctx hc]
    exact h

/-- The generic flow does not touch the session store. -/
theorem doAuthc_Values (s : scheme.Schemer) (ctx : Context) :
    (doAuthcAndAuthz s ctx).ctx.Session.Values = ctx.Session.Values := by
  by_cases he : (s.DoAuthenticate (s.ExtractAuthenticationToken ctx.Req)).2
      = some .ErrAuthenticationFailed
  · by_cases hk : s.Scheme = "basic"
    · by_cases hc : ∃ b, s.concrete = .BasicAuth b
      · obtain ⟨b, hc⟩ := hc
        rw [doAuthc_failed_basic s ctx b hk hc he]; rfl
      · have hc : ∀ b, s.concrete ≠ .BasicAuth b := fun b hb => hc ⟨b, hb⟩
        rw [doAuthc_failed_assert_panic s ctx hk hc he]; rfl
    · rw [doAuthc_failed_other s ctx hk he]; rfl
  · cases hi : (s.DoAuthenticate (s.ExtractAuthenticationToken ctx.Req)).1 with
    | none => rw [doAuthc_nil s ctx he hi]; rfl
    | some a => rw [doAuthc_success s ctx a he hi]; rfl

/-- The dispatcher keeps a session free of credentials, whatever branch it
takes. -/
theorem handle_credentialFree (m : security.Manager) (ctx : Context)
    (h : credentialFree ctx.Session = true) :
    credentialFree (handleAuthcAndAuthz m ctx).ctx.Session = true := by
  by_cases ha : ctx.route.Auth = "anonymous"
  · rw [(handleAuthcAndAuthz_anon_eq m ctx ha)]; exact h
  · cases hs : m.GetAuthScheme ctx.route.Auth with
    | none => rw [handleAuthcAndAuthz_nil_eq m ctx ha hs]; exact h
    | some s =>
      by_cases hk : s.Scheme = "form"
      · rw [handle_form m ctx s ha hs hk]
        exact doForm_credentialFree s ctx h
      · rw [handle_generic m ctx s ha hs hk]
        have hv := doAuthc_Values s ctx
        simp only [credentialFree] at h ⊢
        rw [hv]
        exact h

/-- C5: whenever a dispatch ends in a successful authentication, that is the
route resolves to a scheme s whose DoAuthenticate returns an AuthenticationInfo
a without error (in the form flow: on a login submission of an unauthenticated
subject), the AuthenticationInfo left on the Subject is a with its Credential
nil, under a form scheme the value stored in the Session under "_aahAuthcInfo"
is that same scrubbed AuthenticationInfo, and under any other scheme the session
store is not written. Moreover, whatever the dispatch does, a session in which
no value carried a non-empty Credential before is still such a session after. -/
theorem credential_scrubbed (m : security.Manager) (ctx : Context) :
    (∀ (s : scheme.Schemer) (a : authc.AuthenticationInfo),
      ctx.route.Auth ≠ "anonymous" →
      m.GetAuthScheme ctx.route.Auth = some s →
      s.DoAuthenticate (s.ExtractAuthenticationToken ctx.Req) = (some a, none) →
      (s.Scheme = "form" → ∃ f, s.concrete = .FormAuth f ∧
        ctx.subject.IsAuthenticated = false ∧
        (f.LoginSubmitURL = ctx.route.Path ∨ ctx.Req.Method = ahttp.MethodPost)) →
      (handleAuthcAndAuthz m ctx).flow ≠ none ∧
      (handleAuthcAndAuthz m ctx).ctx.subject.AuthenticationInfo
        = some { a with Credential := [] } ∧
      (s.Scheme = "form" →
        (handleAuthcAndAuthz m ctx).ctx.Session.Get keyAuthcInfo
          = some (.authcInfo (some { a with Credential := [] }))) ∧
      (s.Scheme ≠ "form" →
        (handleAuthcAndAuthz m ctx).ctx.Session.Values = ctx.Session.Values)) ∧
    (credentialFree ctx.Session = true →
      credentialFree (handleAuthcAndAuthz m ctx).ctx.Session = true) := by
  refine ⟨?_, handle_credentialFree m ctx⟩
  intro s a hn hs hd hform
  have he : (s.DoAuthenticate (s.ExtractAuthenticationToken ctx.Req)).2
      ≠ some .ErrAuthenticationFailed := by rw [hd]; simp
  have hi : (s.DoAuthenticate (s.ExtractAuthenticationToken ctx.Req)).1 = some a := by
    rw [hd]
  by_cases hk : s.Scheme = "form"
  · obtain ⟨f, hc, ha, hb⟩ := hform hk
    rw [handle_form m ctx s hn hs hk, doForm_success s ctx f a hc ha hb he hi]
    refine ⟨by simp, rfl, fun _ => ?_, fun h => absurd hk h⟩
    exact Get_Set _ keyAuthcInfo _
  · rw [handle_generic m ctx s hn hs hk, doAuthc_success s ctx a he hi]
    exact ⟨by simp, rfl, fun h => absurd h hk, fun _ => rfl⟩

/-- Witness of C5: alice logs in through the form on a session that caches a
scrubbed peer; the subject and the session cache hold alice without her
credential and the session stays free of credentials. -/
theorem credential_scrubbed_witness :
    (handleAuthcAndAuthz (managerOf (formScheme sampleForm (some alice, none)))
      { loginSubmitCtx with subject := returningCtx.subject }).ctx.subject.AuthenticationInfo
        = some { Principals := ["alice"], Credential := [] } ∧
    (handleAuthcAndAuthz (managerOf (formScheme sampleForm (some alice, none)))
      { loginSubmitCtx with subject := returningCtx.subject }).ctx.Session.Get keyAuthcInfo
        = some (.authcInfo (some { Principals := ["alice"], Credential := [] })) ∧
    credentialFree (handleAuthcAndAuthz (managerOf (formScheme sampleForm (some alice, none)))
      { loginSubmitCtx with subject := returningCtx.subject }).ctx.Session = true :=
  have h := credential_scrubbed (managerOf (formScheme sampleForm (some alice, none)))
    { loginSubmitCtx with subject := returningCtx.subject }
  have h1 := h.1 (formScheme sampleForm (some alice, none)) alice (by decide) rfl rfl
    (fun _ => ⟨sampleForm, rfl, rfl, Or.inl rfl⟩)
  ⟨h1.2.1, h1.2.2.1 rfl, h.2 (by decide)⟩

/-! ## The form flow -/

/-- C6: authentication is reached by requests that are not a POST to the
login-submit route. With LoginSubmitURL "/login", an unauthenticated POST to
the route "/admin" and an unauthenticated GET of the route "/login" are both
passed to ExtractAuthenticationToken and DoAuthenticate instead of being
redirected to the login URL, and the former is logged in. -/
theorem doFormAuthcAndAuthz_authenticates_off_submit :
    sampleForm.LoginSubmitURL ≠ protectedPostCtx.route.Path ∧
    protectedPostCtx.subject.IsAuthenticated = false ∧
    (doFormAuthcAndAuthz (formScheme sampleForm (some alice, none)) protectedPostCtx).log =
      [.preAuth, .extractAuthenticationToken, .doAuthenticate {},
       .doAuthorizationInfo (some alice), .postAuth, .writeReply [.Redirect "/"]] ∧
    (doFormAuthcAndAuthz (formScheme sampleForm (some alice, none))
      protectedPostCtx).ctx.Session.IsAuthenticated = true ∧
    submitGetCtx.Req.Method ≠ ahttp.MethodPost ∧
    submitGetCtx.subject.IsAuthenticated = false ∧
    (doFormAuthcAndAuthz (formScheme sampleForm (none, some .ErrAuthenticationFailed))
      submitGetCtx).log =
      [.preAuth, .extractAuthenticationToken, .doAuthenticate {},
       .writeReply [.Redirect "/login.html?error=true&_rt="]] := by
  refine ⟨by decide, rfl, ?_, ?_, by decide, rfl, ?_⟩ <;> decide

/-- C7: whenever the form flow takes the redirect-to-login branch (the subject
is unauthenticated, the route path differs from LoginSubmitURL and the method is
not POST), it returns flowStop after one Redirect, which is written; the target
is exactly LoginURL when LoginURL is the current request path, and exactly
LoginURL followed by "?_rt=" and the raw request URI otherwise. -/
theorem doFormAuthcAndAuthz_login_target (s : scheme.Schemer) (ctx : Context)
    (f : scheme.FormAuth) (hc : s.concrete = .FormAuth f)
    (ha : ctx.subject.IsAuthenticated = false)
    (hb : f.LoginSubmitURL ≠ ctx.route.Path ∧ ctx.Req.Method ≠ ahttp.MethodPost) :
    (doFormAuthcAndAuthz s ctx).flow = some flowStop ∧
    (f.LoginURL = ctx.Req.Path →
      (doFormAuthcAndAuthz s ctx).ctx.reply = ctx.reply ++ [.Redirect f.LoginURL]) ∧
    (f.LoginURL ≠ ctx.Req.Path →
      (doFormAuthcAndAuthz s ctx).ctx.reply =
        ctx.reply ++ [.Redirect (f.LoginURL ++ "?_rt=" ++ ctx.Req.Raw.RequestURI)]) ∧
    (doFormAuthcAndAuthz s ctx).log = [.writeReply (doFormAuthcAndAuthz s ctx).ctx.reply] := by
  rw [doForm_login s ctx f hc ha hb]
  refine ⟨rfl, fun h => ?_, fun h => ?_, rfl⟩
  · simp [h]
  · simp [h]

/-- Witness of C7: a GET of a protected page is sent to the login page with its
own URI as return target, a GET of the login page is sent to the bare login
URL. -/
theorem doFormAuthcAndAuthz_login_target_witness :
    (doFormAuthcAndAuthz (formScheme sampleForm (none, none)) protectedGetCtx).ctx.reply
      = [.Redirect "/login.html?_rt=/admin?tab=2"] ∧
    (doFormAuthcAndAuthz (formScheme sampleForm (none, none)) loginPageCtx).ctx.reply
      = [.Redirect "/login.html"] :=
  ⟨(doFormAuthcAndAuthz_login_target (formScheme sampleForm (none, none)) protectedGetCtx
      sampleForm rfl rfl ⟨by decide, by decide⟩).2.2.1 (by decide),
   (doFormAuthcAndAuthz_login_target (formScheme sampleForm (none, none)) loginPageCtx
      sampleForm rfl rfl ⟨by decide, by decide⟩).2.1 rfl⟩

/-- C8: on a successful login (an unauthenticated subject, a request that
reaches authentication, DoAuthenticate returning an AuthenticationInfo without
error) the form flow redirects to DefaultTargetURL if IsAlwaysToDefaultTarget is
set or the submitted "_rt" form value is empty, and to that value, verbatim,
otherwise; the redirect is the last call on the reply, the reply is written
last, and the flow returns flowStop. -/
theorem doFormAuthcAndAuthz_success_target (s : scheme.Schemer) (ctx : Context)
    (f : scheme.FormAuth) (a : authc.AuthenticationInfo) (hc : s.concrete = .FormAuth f)
    (ha : ctx.subject.IsAuthenticated = false)
    (hb : f.LoginSubmitURL = ctx.route.Path ∨ ctx.Req.Method = ahttp.MethodPost)
    (hd : s.DoAuthenticate (s.ExtractAuthenticationToken ctx.Req) = (some a, none)) :
    (doFormAuthcAndAuthz s ctx).flow = some flowStop ∧
    (f.IsAlwaysToDefaultTarget = true ∨ ctx.Req.Raw.FormValue "_rt" = "" →
      (doFormAuthcAndAuthz s ctx).ctx.reply = ctx.reply ++ [.Redirect f.DefaultTargetURL]) ∧
    (¬ (f.IsAlwaysToDefaultTarget = true ∨ ctx.Req.Raw.FormValue "_rt" = "") →
      (doFormAuthcAndAuthz s ctx).ctx.reply =
        ctx.reply ++ [.Redirect (ctx.Req.Raw.FormValue "_rt")]) ∧
    (doFormAuthcAndAuthz s ctx).log.getLast?
      = some (.writeReply (doFormAuthcAndAuthz s ctx).ctx.reply) := by
  have he : (s.DoAuthenticate (s.ExtractAuthenticationToken ctx.Req)).2
      ≠ some .ErrAuthenticationFailed := by rw [hd]; simp
  have hi : (s.DoAuthenticate (s.ExtractAuthenticationToken ctx.Req)).1 = some a := by
    rw [hd]
  rw [doForm_success s ctx f a hc ha hb he hi]
  refine ⟨rfl, fun h => ?_, fun h => ?_, rfl⟩
  · simp only [if_pos h]
  · simp only [if_neg h]

/-- Witness of C8: with "_rt" submitted as "/dashboard" the target is
"/dashboard" when the flag is false and DefaultTargetURL when it is true. -/
theorem doFormAuthcAndAuthz_success_target_witness :
    loginSubmitCtx.Req.Raw.FormValue "_rt" = "/dashboard" ∧
    (doFormAuthcAndAuthz (formScheme sampleForm (some alice, none)) loginSubmitCtx).ctx.reply
      = [.Redirect "/dashboard"] ∧
    (doFormAuthcAndAuthz
      (formScheme { sampleForm with IsAlwaysToDefaultTarget := true } (some alice, none))
      loginSubmitCtx).ctx.reply = [.Redirect sampleForm.DefaultTargetURL] :=
  ⟨by decide,
   (doFormAuthcAndAuthz_success_target (formScheme sampleForm (some alice, none))
      loginSubmitCtx sampleForm alice rfl rfl (Or.inl rfl) rfl).2.2.1 (by decide),
   (doFormAuthcAndAuthz_success_target
      (formScheme { sampleForm with IsAlwaysToDefaultTarget := true } (some alice, none))
      loginSubmitCtx { sampleForm with IsAlwaysToDefaultTarget := true } alice rfl rfl
      (Or.inl rfl) rfl).2.1 (Or.inl rfl)⟩

/-- C9: for an authenticated subject whose session holds an AuthenticationInfo a
under "_aahAuthcInfo", the form flow returns flowCont with
Subject.AuthenticationInfo = a and Subject.AuthorizationInfo =
DoAuthorizationInfo(a); the one call it makes is that DoAuthorizationInfo (no
token extraction, no DoAuthenticate, no reply written), and the session, the
reply, the route and the request are as before. -/
theorem doFormAuthcAndAuthz_restores (s : scheme.Schemer) (ctx : Context)
    (f : scheme.FormAuth) (a : authc.AuthenticationInfo) (hc : s.concrete = .FormAuth f)
    (ha : ctx.subject.IsAuthenticated = true)
    (hg : ctx.Session.Get keyAuthcInfo = some (.authcInfo (some a))) :
    (doFormAuthcAndAuthz s ctx).flow = some flowCont ∧
    (doFormAuthcAndAuthz s ctx).ctx.subject.AuthenticationInfo = some a ∧
    (doFormAuthcAndAuthz s ctx).ctx.subject.AuthorizationInfo
      = s.DoAuthorizationInfo (some a) ∧
    (doFormAuthcAndAuthz s ctx).log = [.doAuthorizationInfo (some a)] ∧
    (doFormAuthcAndAuthz s ctx).ctx.Session = ctx.Session ∧
    (doFormAuthcAndAuthz s ctx).ctx.reply = ctx.reply ∧
    (doFormAuthcAndAuthz s ctx).ctx.route = ctx.route ∧
    (doFormAuthcAndAuthz s ctx).ctx.Req = ctx.Req := by
  rw [doForm_restore s ctx f (some a) hc ha hg]
  exact ⟨rfl, rfl, rfl, rfl, rfl, rfl, rfl, rfl⟩

/-- Witness of C9 on a logged-in client whose session caches alice. -/
theorem doFormAuthcAndAuthz_restores_witness :
    loggedInCtx.subject.IsAuthenticated = true ∧
    (doFormAuthcAndAuthz (formScheme sampleForm (none, none)) loggedInCtx).flow
      = some flowCont ∧
    (doFormAuthcAndAuthz (formScheme sampleForm (none, none)) loggedInCtx).ctx.subject
      = { AuthenticationInfo := some { Principals := ["alice"] }
          AuthorizationInfo := some { Roles := ["alice"] }
          Session := loggedInCtx.Session } ∧
    (doFormAuthcAndAuthz (formScheme sampleForm (none, none)) loggedInCtx).log
      = [.doAuthorizationInfo (some { Principals := ["alice"] })] :=
  have h := doFormAuthcAndAuthz_restores (formScheme sampleForm (none, none)) loggedInCtx
    sampleForm { Principals := ["alice"] } rfl rfl (by decide)
  ⟨rfl, h.1, by decide, h.2.2.2.1⟩

/-! ## The generic flow -/

/-- C10: when DoAuthenticate returns ErrAuthenticationFailed, the generic flow
under a scheme of kind "basic" with realm name R calls Unauthorized, then sets
the WWW-Authenticate header to exactly Basic realm="R", writes that reply and
returns flowStop; under a scheme of any other kind it calls Unauthorized only,
writes that reply and returns flowStop. In both cases the Subject, with its
Session and the IsAuthenticated flag, is as before and nothing is authorized. -/
theorem doAuthcAndAuthz_failed (s : scheme.Schemer) (ctx : Context)
    (p : Option authc.AuthenticationInfo)
    (hd : s.DoAuthenticate (s.ExtractAuthenticationToken ctx.Req)
      = (p, some .ErrAuthenticationFailed)) :
    (∀ R : String, s.Scheme = "basic" → s.concrete = .BasicAuth { RealmName := R } →
      (doAuthcAndAuthz s ctx).flow = some flowStop ∧
      (doAuthcAndAuthz s ctx).ctx.reply = ctx.reply ++
        [.Unauthorized, .Header "WWW-Authenticate" ("Basic realm=\"" ++ R ++ "\"")] ∧
      (doAuthcAndAuthz s ctx).ctx.subject = ctx.subject ∧
      (doAuthcAndAuthz s ctx).log =
        [.preAuth, .extractAuthenticationToken,
         .doAuthenticate (s.ExtractAuthenticationToken ctx.Req),
         .writeReply (doAuthcAndAuthz s ctx).ctx.reply]) ∧
    (s.Scheme ≠ "basic" →
      (doAuthcAndAuthz s ctx).flow = some flowStop ∧
      (doAuthcAndAuthz s ctx).ctx.reply = ctx.reply ++ [.Unauthorized] ∧
      (doAuthcAndAuthz s ctx).ctx.subject = ctx.subject ∧
      (doAuthcAndAuthz s ctx).log =
        [.preAuth, .extractAuthenticationToken,
         .doAuthenticate (s.ExtractAuthenticationToken ctx.Req),
         .writeReply (doAuthcAndAuthz s ctx).ctx.reply]) := by
  have he : (s.DoAuthenticate (s.ExtractAuthenticationToken ctx.Req)).2
      = some .ErrAuthenticationFailed := by rw [hd]
  refine ⟨fun R hk hc => ?_, fun hk => ?_⟩
  · rw [doAuthc_failed_basic s ctx _ hk hc he]
    exact ⟨rfl, rfl, rfl, rfl⟩
  · rw [doAuthc_failed_other s ctx hk he]
    exact ⟨rfl, rfl, rfl, rfl⟩

/-- Witness of C10: the realm "Corp" gives the header Basic realm="Corp", a
token scheme gives no header. -/
theorem doAuthcAndAuthz_failed_witness :
    (doAuthcAndAuthz (basicScheme "Corp" (none, some .ErrAuthenticationFailed))
      protectedGetCtx).ctx.reply
      = [.Unauthorized, .Header "WWW-Authenticate" "Basic realm=\"Corp\""] ∧
    (doAuthcAndAuthz (tokenScheme (none, some .ErrAuthenticationFailed))
      protectedGetCtx).ctx.reply = [.Unauthorized] :=
  ⟨((doAuthcAndAuthz_failed (basicScheme "Corp" (none, some .ErrAuthenticationFailed))
      protectedGetCtx none rfl).1 "Corp" rfl rfl).2.1,
   ((doAuthcAndAuthz_failed (tokenScheme (none, some .ErrAuthenticationFailed))
      protectedGetCtx none rfl).2 (by decide)).2.1⟩

/-! ## The flow signal -/

/-- A dispatch that returns flowCont without writing or touching the reply. -/
theorem signal_cont (before : Reply) (ctx1 : Context) (log : List Event)
    (hw : writes log = 0) (hr : ctx1.reply = before) :
    FlowSignal before ⟨some flowCont, ctx1, log⟩ := by
  refine ⟨?_, ?_, ?_, fun _ => hr⟩
  · simp [hw]
  · simp [hw]
  · intro h; simp at h

/-- A dispatch that panics before any write of the reply. -/
theorem signal_panic (before : Reply) (ctx1 : Context) (log : List Event)
    (hw : writes log = 0) :
    FlowSignal before ⟨none, ctx1, log⟩ := by
  refine ⟨?_, ?_, ?_, ?_⟩
  · simp [hw]
  · simp [hw]
  · intro h; simp at h
  · intro h; simp at h

/-- A dispatch that sets a response on the reply, writes it last and returns
flowStop. -/
theorem signal_stop (before : Reply) (ctx1 : Context) (pre : List Event)
    (c : ReplyCall) (rest : List ReplyCall)
    (hw : writes pre = 0) (hr : ctx1.reply = before ++ c :: rest)
    (hc : isResponse c = true) :
    FlowSignal before ⟨some flowStop, ctx1, pre ++ [.writeReply ctx1.reply]⟩ := by
  have hw1 : writes (pre ++ [Event.writeReply ctx1.reply]) = 1 := by
    simp only [writes, List.filter_append, List.length_append] at hw ⊢
    rw [hw]
    rfl
  refine ⟨?_, ?_, ?_, ?_⟩
  · simp [hw1]
  · simp [hw1]
  · intro _
    exact ⟨c, rest, hr, hc, by simp⟩
  · intro h; simp at h

/-- The scheme lookup in front of a flow does not change what the signal
tells. -/
theorem signal_lookup (before : Reply) (r : Result) (name : String)
    (h : FlowSignal before r) :
    FlowSignal before { r with log := .getAuthScheme name :: r.log } := by
  obtain ⟨h1, h2, h3, h4⟩ := h
  have hw : writes (Event.getAuthScheme name :: r.log) = writes r.log := by
    simp [writes, List.filter_cons, isWriteReply]
  refine ⟨?_, ?_, ?_, h4⟩
  · simpa only [hw] using h1
  · simpa only [hw] using h2
  · intro hs
    obtain ⟨c, rest, hr, hc, hl⟩ := h3 hs
    refine ⟨c, rest, hr, hc, ?_⟩
    show (Event.getAuthScheme name :: r.log).getLast? = _
    cases hlog : r.log with
    | nil => rw [hlog] at hl; simp at hl
    | cons e es =>
      rw [hlog] at hl
      rw [List.getLast?_cons_cons]
      exact hl

/-- The flow signal of the form flow. -/
theorem doForm_signal (s : scheme.Schemer) (ctx : Context) :
    FlowSignal ctx.reply (doFormAuthcAndAuthz s ctx) := by
  by_cases hc : ∃ f, s.concrete = .FormAuth f
  · obtain ⟨f, hc⟩ := hc
    by_cases ha : ctx.subject.IsAuthenticated = true
    · cases hg : ctx.Session.Get keyAuthcInfo with
      | none =>
        rw [doForm_no_cache s ctx f hc ha hg]
        exact signal_cont _ _ _ rfl rfl
      | some v =>
        cases v with
        | authcInfo p =>
          rw [doForm_restore s ctx f p hc ha hg]
          exact signal_cont _ _ _ rfl rfl
        | other v =>
          rw [doForm_restore_panic s ctx f v hc ha hg]
          exact signal_panic _ _ _ rfl
    · have ha : ctx.subject.IsAuthenticated = false := by simpa using ha
      by_cases hb : f.LoginSubmitURL ≠ ctx.route.Path ∧ ctx.Req.Method ≠ ahttp.MethodPost
      · rw [doForm_login s ctx f hc ha hb]
        exact signal_stop ctx.reply _ [] _ [] rfl rfl rfl
      · have hb : f.LoginSubmitURL = ctx.route.Path ∨ ctx.Req.Method = ahttp.MethodPost := by
          by_contra hn
          exact hb ⟨fun h1 => hn (Or.inl h1), fun h2 => hn (Or.inr h2)⟩
        by_cases he : (s.DoAuthenticate (s.ExtractAuthenticationToken ctx.Req)).2
            = some .ErrAuthenticationFailed
        · rw [doForm_failed s ctx f hc ha hb he]
          exact signal_stop ctx.reply _
            [.preAuth, .extractAuthenticationToken,
             .doAuthenticate (s.ExtractAuthenticationToken ctx.Req)] _ [] rfl rfl rfl
        · cases hi : (s.DoAuthenticate (s.ExtractAuthenticationToken ctx.Req)).1 with
          | none =>
            rw [doForm_nil s ctx f hc ha hb he hi]
            exact signal_panic _ _ _ rfl
          | some a =>
            rw [doForm_success s ctx f a hc ha hb he hi]
            exact signal_stop ctx.reply _
              [.preAuth, .extractAuthenticationToken,
               .doAuthenticate (s.ExtractAuthenticationToken ctx.Req),
               .doAuthorizationInfo (some a), .postAuth] _ [] rfl rfl rfl
  · have hc : ∀ f, s.concrete ≠ .FormAuth f := fun f hf => hc ⟨f, hf⟩
    rw [doForm_assert_panic s ctx hc]
    exact signal_panic _ _ _ rfl

/-- The flow signal of the generic flow. -/
theorem doAuthc_signal (s : scheme.Schemer) (ctx : Context) :
    FlowSignal ctx.reply (doAuthcAndAuthz s ctx) := by
  by_cases he : (s.DoAuthenticate (s.ExtractAuthenticationToken ctx.Req)).2
      = some .ErrAuthenticationFailed
  · by_cases hk : s.Scheme = "basic"
    · by_cases hc : ∃ b, s.concrete = .BasicAuth b
      · obtain ⟨b, hc⟩ := hc
        rw [doAuthc_failed_basic s ctx b hk hc he]
        exact signal_stop ctx.reply _
          [.preAuth, .extractAuthenticationToken,
           .doAuthenticate (s.ExtractAuthenticationToken ctx.Req)] .Unauthorized _
          rfl rfl rfl
      · have hc : ∀ b, s.concrete ≠ .BasicAuth b := fun b hb => hc ⟨b, hb⟩
        rw [doAuthc_failed_assert_panic s ctx hk hc he]
        exact signal_panic _ _ _ rfl
    · rw [doAuthc_failed_other s ctx hk he]
      exact signal_stop ctx.reply _
        [.preAuth, .extractAuthenticationToken,
         .doAuthenticate (s.ExtractAuthenticationToken ctx.Req)] _ [] rfl rfl rfl
  · cases hi : (s.DoAuthenticate (s.ExtractAuthenticationToken ctx.Req)).1 with
    | none =>
      rw [doAuthc_nil s ctx he hi]
      exact signal_panic _ _ _ rfl
    | some a =>
      rw [doAuthc_success s ctx a he hi]
      exact signal_cont _ _ _ rfl rfl

/-- The flow signal of the dispatcher. -/
theorem handle_signal (m : security.Manager) (ctx : Context) :
    FlowSignal ctx.reply (handleAuthcAndAuthz m ctx) := by
  by_cases ha : ctx.route.Auth = "anonymous"
  · rw [handleAuthcAndAuthz_anon_eq m ctx ha]
    exact signal_cont _ _ _ rfl rfl
  · cases hs : m.GetAuthScheme ctx.route.Auth with
    | none =>
      rw [handleAuthcAndAuthz_nil_eq m ctx ha hs]
      exact signal_cont _ _ _ rfl rfl
    | some s =>
      by_cases hk : s.Scheme = "form"
      · rw [handle_form m ctx s ha hs hk]
        exact signal_lookup _ _ _ (doForm_signal s ctx)
      · rw [handle_generic m ctx s ha hs hk]
        exact signal_lookup _ _ _ (doAuthc_signal s ctx)

/-- C11 as stated fails: a dispatch on a session flagged authenticated that
holds a value of another type under "_aahAuthcInfo" writes no reply and sets
nothing on the Reply, yet it does not return flowCont (the type assertion on
the cached value panics). -/
theorem flow_signal_counterexample :
    ¬ ((handleAuthcAndAuthz (managerOf (formScheme sampleForm (none, none)))
          corruptCacheCtx).flow = some flowCont ↔
       (writes (handleAuthcAndAuthz (managerOf (formScheme sampleForm (none, none)))
          corruptCacheCtx).log = 0 ∧
        (handleAuthcAndAuthz (managerOf (formScheme sampleForm (none, none)))
          corruptCacheCtx).ctx.reply = corruptCacheCtx.reply)) := by
  decide

/-- C11, amended: for every context and every scheme behaviour the dispatcher
returns flowStop if and only if it wrote the reply, which it then did exactly
once, as its last call, after a Redirect or Unauthorized was set on the Reply;
in every other outcome it wrote no reply. When it returns flowCont no reply was
written and nothing was set on the Reply, and when it returns at all with no
reply written and the Reply untouched, it returns flowCont. -/
theorem handleAuthcAndAuthz_flow_signal (m : security.Manager) (ctx : Context) :
    ((handleAuthcAndAuthz m ctx).flow = some flowStop ↔
      writes (handleAuthcAndAuthz m ctx).log = 1) ∧
    ((handleAuthcAndAuthz m ctx).flow ≠ some flowStop ↔
      writes (handleAuthcAndAuthz m ctx).log = 0) ∧
    ((handleAuthcAndAuthz m ctx).flow = some flowStop →
      ∃ c rest, (handleAuthcAndAuthz m ctx).ctx.reply = ctx.reply ++ c :: rest ∧
        isResponse c = true ∧
        (handleAuthcAndAuthz m ctx).log.getLast?
          = some (.writeReply (handleAuthcAndAuthz m ctx).ctx.reply)) ∧
    ((handleAuthcAndAuthz m ctx).flow = some flowCont →
      writes (handleAuthcAndAuthz m ctx).log = 0 ∧
      (handleAuthcAndAuthz m ctx).ctx.reply = ctx.reply) ∧
    ((handleAuthcAndAuthz m ctx).flow ≠ none →
      writes (handleAuthcAndAuthz m ctx).log = 0 →
      (handleAuthcAndAuthz m ctx).ctx.reply = ctx.reply →
      (handleAuthcAndAuthz m ctx).flow = some flowCont) := by
  obtain ⟨h1, h2, h3, h4⟩ := handle_signal m ctx
  refine ⟨h1, h2, h3, fun hc => ⟨?_, h4 hc⟩, fun hn hw _ => ?_⟩
  · apply h2.1
    rw [hc]
    decide
  · have hs := h2.2 hw
    cases hf : (handleAuthcAndAuthz m ctx).flow with
    | none => exact absurd hf hn
    | some v =>
      cases v with
      | flowCont => rfl
      | flowStop => exact absurd hf hs

/-- Witness of C11: the GET of a protected page stops after one written
redirect, the request on the anonymous route continues with no write. -/
theorem handleAuthcAndAuthz_flow_signal_witness :
    (handleAuthcAndAuthz (managerOf (formScheme sampleForm (none, none)))
      protectedGetCtx).flow = some flowStop ∧
    writes (handleAuthcAndAuthz (managerOf (formScheme sampleForm (none, none)))
      protectedGetCtx).log = 1 ∧
    (handleAuthcAndAuthz (managerOf (formScheme sampleForm (none, none)))
      anonymousCtx).flow = some flowCont ∧
    writes (handleAuthcAndAuthz (managerOf (formScheme sampleForm (none, none)))
      anonymousCtx).log = 0 ∧
    (handleAuthcAndAuthz (managerOf (formScheme sampleForm (none, none)))
      anonymousCtx).ctx.reply = anonymousCtx.reply :=
  have h1 := handleAuthcAndAuthz_flow_signal (managerOf (formScheme sampleForm (none, none)))
    protectedGetCtx
  have h2 := handleAuthcAndAuthz_flow_signal (managerOf (formScheme sampleForm (none, none)))
    anonymousCtx
  ⟨by decide, h1.1.1 (by decide), by decide, (h2.2.2.2.1 (by decide)).1,
    (h2.2.2.2.1 (by decide)).2⟩

/-! ## The remaining branches, one by one -/

/-- C18: on a login submission of an unauthenticated subject for which
DoAuthenticate returns ErrAuthenticationFailed, the form flow redirects to
exactly LoginFailureURL followed by "&_rt=" and the "_rt" value of the
submitted form (empty when none was submitted), writes that reply and returns
flowStop; the Subject with its Session is as before, so IsAuthenticated is
still false, nothing is written under "_aahAuthcInfo" and the
AuthenticationInfo/AuthorizationInfo are unchanged; no post-auth event is
published and nothing is authorized. -/
theorem doFormAuthcAndAuthz_failed_login (s : scheme.Schemer) (ctx : Context)
    (f : scheme.FormAuth) (p : Option authc.AuthenticationInfo)
    (hc : s.concrete = .FormAuth f) (ha : ctx.subject.IsAuthenticated = false)
    (hb : f.LoginSubmitURL = ctx.route.Path ∨ ctx.Req.Method = ahttp.MethodPost)
    (hd : s.DoAuthenticate (s.ExtractAuthenticationToken ctx.Req)
      = (p, some .ErrAuthenticationFailed)) :
    (doFormAuthcAndAuthz s ctx).flow = some flowStop ∧
    (doFormAuthcAndAuthz s ctx).ctx.reply = ctx.reply ++
      [.Redirect (f.LoginFailureURL ++ "&_rt=" ++ ctx.Req.Raw.FormValue "_rt")] ∧
    (doFormAuthcAndAuthz s ctx).log =
      [.preAuth, .extractAuthenticationToken,
       .doAuthenticate (s.ExtractAuthenticationToken ctx.Req),
       .writeReply (doFormAuthcAndAuthz s ctx).ctx.reply] ∧
    (doFormAuthcAndAuthz s ctx).ctx.subject = ctx.subject ∧
    (doFormAuthcAndAuthz s ctx).ctx.Session.IsAuthenticated = false ∧
    (doFormAuthcAndAuthz s ctx).ctx.Session.Get keyAuthcInfo
      = ctx.Session.Get keyAuthcInfo ∧
    Event.postAuth ∉ (doFormAuthcAndAuthz s ctx).log := by
  have he : (s.DoAuthenticate (s.ExtractAuthenticationToken ctx.Req)).2
      = some .ErrAuthenticationFailed := by rw [hd]
  rw [doForm_failed s ctx f hc ha hb he]
  refine ⟨rfl, rfl, rfl, rfl, ha, rfl, ?_⟩
  simp

/-- Witness of C18: a refused login submission that asked for "/dashboard". -/
theorem doFormAuthcAndAuthz_failed_login_witness :
    loginSubmitCtx.subject.IsAuthenticated = false ∧
    (doFormAuthcAndAuthz (formScheme sampleForm (none, some .ErrAuthenticationFailed))
      loginSubmitCtx).flow = some flowStop ∧
    (doFormAuthcAndAuthz (formScheme sampleForm (none, some .ErrAuthenticationFailed))
      loginSubmitCtx).ctx.reply = [.Redirect "/login.html?error=true&_rt=/dashboard"] :=
  have h := doFormAuthcAndAuthz_failed_login
    (formScheme sampleForm (none, some .ErrAuthenticationFailed)) loginSubmitCtx
    sampleForm none rfl rfl (Or.inl rfl) rfl
  ⟨rfl, h.1, h.2.1⟩

/-- C19: when DoAuthenticate returns an AuthenticationInfo a with no error, the
generic flow returns flowCont with Subject.AuthenticationInfo equal to a with
its Credential cleared, Subject.AuthorizationInfo = DoAuthorizationInfo(a) (a
as returned), Session.IsAuthenticated = true, the Reply untouched and not
written, and the session store and ID as before. -/
theorem doAuthcAndAuthz_authenticated (s : scheme.Schemer) (ctx : Context)
    (a : authc.AuthenticationInfo)
    (hd : s.DoAuthenticate (s.ExtractAuthenticationToken ctx.Req) = (some a, none)) :
    (doAuthcAndAuthz s ctx).flow = some flowCont ∧
    (doAuthcAndAuthz s ctx).ctx.subject.AuthenticationInfo
      = some { a with Credential := [] } ∧
    (doAuthcAndAuthz s ctx).ctx.subject.AuthorizationInfo = s.DoAuthorizationInfo (some a) ∧
    (doAuthcAndAuthz s ctx).ctx.Session.IsAuthenticated = true ∧
    (doAuthcAndAuthz s ctx).ctx.reply = ctx.reply ∧
    writes (doAuthcAndAuthz s ctx).log = 0 ∧
    (doAuthcAndAuthz s ctx).ctx.Session.Values = ctx.Session.Values ∧
    (doAuthcAndAuthz s ctx).ctx.Session.ID = ctx.Session.ID ∧
    (doAuthcAndAuthz s ctx).log =
      [.preAuth, .extractAuthenticationToken,
       .doAuthenticate (s.ExtractAuthenticationToken ctx.Req),
       .doAuthorizationInfo (some a), .postAuth] := by
  have he : (s.DoAuthenticate (s.ExtractAuthenticationToken ctx.Req)).2
      ≠ some .ErrAuthenticationFailed := by rw [hd]; simp
  have hi : (s.DoAuthenticate (s.ExtractAuthenticationToken ctx.Req)).1 = some a := by
    rw [hd]
  rw [doAuthc_success s ctx a he hi]
  exact ⟨rfl, rfl, rfl, rfl, rfl, rfl, rfl, rfl, rfl⟩

/-- Witness of C19: alice authenticates under a basic scheme on a session that
holds other values. -/
theorem doAuthcAndAuthz_authenticated_witness :
    (doAuthcAndAuthz (basicScheme "Corp" (some alice, none)) returningCtx).flow
      = some flowCont ∧
    (doAuthcAndAuthz (basicScheme "Corp" (some alice, none)) returningCtx).ctx.subject
      = { AuthenticationInfo := some { Principals := ["alice"] }
          AuthorizationInfo := some { Roles := ["alice"] }
          Session := { returningCtx.Session with IsAuthenticated := true } } :=
  have h := doAuthcAndAuthz_authenticated (basicScheme "Corp" (some alice, none))
    returningCtx alice rfl
  ⟨h.1, by decide⟩

/-- C20: for a subject that is authenticated while the session has no value
under "_aahAuthcInfo", the form flow returns flowCont and leaves the whole
context as it was (AuthenticationInfo and AuthorizationInfo of the Subject, the
Session, the Reply); it calls no collaborator, so neither DoAuthenticate nor
DoAuthorizationInfo runs. -/
theorem doFormAuthcAndAuthz_lost_cache (s : scheme.Schemer) (ctx : Context)
    (f : scheme.FormAuth) (hc : s.concrete = .FormAuth f)
    (ha : ctx.subject.IsAuthenticated = true)
    (hk : ctx.Session.IsKeyExists keyAuthcInfo = false) :
    (doFormAuthcAndAuthz s ctx).flow = some flowCont ∧
    (doFormAuthcAndAuthz s ctx).ctx = ctx ∧
    (doFormAuthcAndAuthz s ctx).log = [] := by
  have hg : ctx.Session.Get keyAuthcInfo = none := by
    simpa [session.Session.IsKeyExists, session.Session.Get] using hk
  rw [doForm_no_cache s ctx f hc ha hg]
  exact ⟨rfl, rfl, rfl⟩

/-- Witness of C20 on a session flagged authenticated that lost its cache. -/
theorem doFormAuthcAndAuthz_lost_cache_witness :
    lostCacheCtx.subject.IsAuthenticated = true ∧
    lostCacheCtx.Session.IsKeyExists keyAuthcInfo = false ∧
    (doFormAuthcAndAuthz (formScheme sampleForm (none, none)) lostCacheCtx).flow
      = some flowCont ∧
    (doFormAuthcAndAuthz (formScheme sampleForm (none, none)) lostCacheCtx).ctx
      = lostCacheCtx ∧
    (doFormAuthcAndAuthz (formScheme sampleForm (none, none)) lostCacheCtx).log = [] :=
  ⟨rfl, by decide,
    doFormAuthcAndAuthz_lost_cache (formScheme sampleForm (none, none)) lostCacheCtx
      sampleForm rfl rfl (by decide)⟩

end aah

namespace ahttp

/-! ## URL parameters -/

/-- What `URLParams.Get` gives on a list extended at its end. -/
theorem Get_append (u : URLParams) (p : URLParam) (key : String) :
    URLParams.Get (u ++ [p]) key =
      if u.any (fun q => q.Key == key) then URLParams.Get u key
      else if p.Key == key then p.Value else "" := by
  induction u with
  | nil => simp [URLParams.Get]
  | cons q u ih =>
    by_cases hq : q.Key = key
    · simp [URLParams.Get, hq]
    · simp [URLParams.Get, hq, ih]

/-- The map built by `URLParams.ToMap` binds a key that occurs to the value of
its last entry, and no other key. -/
theorem ToMap_eq (u : URLParams) (key : String) :
    URLParams.ToMap u key =
      if u.any (fun q => q.Key == key) then some (URLParams.Get u.reverse key) else none := by
  induction u using List.reverseRecOn with
  | nil => simp [URLParams.ToMap, StringMap.empty]
  | append_singleton u p ih =>
    have hstep : URLParams.ToMap (u ++ [p]) key =
        if key = p.Key then some p.Value else URLParams.ToMap u key := by
      simp [URLParams.ToMap, List.foldl_append, StringMap.set]
    rw [hstep, ih]
    by_cases hp : p.Key = key
    · simp [URLParams.Get, hp]
    · have hp2 : ¬ key = p.Key := fun h => hp h.symm
      simp [URLParams.Get, hp, hp2]

/-- When every entry with the key carries the value `v` and there is such an
entry, `URLParams.Get` returns `v`. -/
theorem Get_of_same (u : URLParams) (key v : String)
    (hk : ∃ p ∈ u, p.Key = key) (hv : ∀ p ∈ u, p.Key = key → p.Value = v) :
    URLParams.Get u key = v := by
  induction u with
  | nil => simp at hk
  | cons q u ih =>
    by_cases hq : q.Key = key
    · simp [URLParams.Get, hq, hv q (List.mem_cons_self _ _) hq]
    · simp only [URLParams.Get, beq_iff_eq, hq, if_false]
      apply ih
      · obtain ⟨p, hp, hpk⟩ := hk
        rcases List.mem_cons.mp hp with h | h
        · exact absurd (h ▸ hpk) hq
        · exact ⟨p, h, hpk⟩
      · exact fun p hp => hv p (List.mem_cons_of_mem _ hp)

/-- C12 as stated fails: in the parameters id=1, name=x, id=2 the key "id"
occurs, `Get` returns the value of its first entry and the map of `ToMap` binds
it to the value of its last. -/
theorem ToMap_Get_counterexample :
    (∃ p ∈ repeatedParams, p.Key = "id") ∧
    URLParams.Get repeatedParams "id" = "1" ∧
    URLParams.ToMap repeatedParams "id" = some "2" ∧
    URLParams.ToMap repeatedParams "id" ≠ some (URLParams.Get repeatedParams "id") := by
  refine ⟨⟨⟨"id", "1"⟩, by simp [repeatedParams], rfl⟩, by decide, by decide, by decide⟩

/-- C12, amended: for every URLParams sequence u and every key k that occurs in
u, looking k up in u.ToMap() yields the value of the last entry with key k
(what `Get` finds in u read backwards), while u.Get(k) is the value of the
first; the lookup yields the same value as u.Get(k) whenever all entries of u
with key k carry the same value, in particular when k occurs once. -/
theorem ToMap_Get (u : URLParams) (k : String) (hk : ∃ p ∈ u, p.Key = k) :
    URLParams.ToMap u k = some (URLParams.Get u.reverse k) ∧
    ((∀ p ∈ u, ∀ q ∈ u, p.Key = k → q.Key = k → p.Value = q.Value) →
      URLParams.ToMap u k = some (URLParams.Get u k)) := by
  have hany : u.any (fun q => q.Key == k) = true := by
    obtain ⟨p, hp, hpk⟩ := hk
    exact List.any_eq_true.mpr ⟨p, hp, by simp [hpk]⟩
  have h1 : URLParams.ToMap u k = some (URLParams.Get u.reverse k) := by
    rw [ToMap_eq, if_pos hany]
  refine ⟨h1, fun hsame => ?_⟩
  obtain ⟨p, hp, hpk⟩ := hk
  have ha : URLParams.Get u k = p.Value :=
    Get_of_same u k p.Value ⟨p, hp, hpk⟩ (fun q hq hqk => hsame q hq p hp hqk hpk)
  have hb : URLParams.Get u.reverse k = p.Value :=
    Get_of_same u.reverse k p.Value ⟨p, List.mem_reverse.mpr hp, hpk⟩
      (fun q hq hqk => hsame q (List.mem_reverse.mp hq) p hp hqk hpk)
  rw [h1, ha, hb]

/-- Witness of C12 on parameters with distinct keys. -/
theorem ToMap_Get_witness :
    URLParams.ToMap [⟨"id", "7"⟩, ⟨"name", "x"⟩] "name"
      = some (URLParams.Get [⟨"id", "7"⟩, ⟨"name", "x"⟩] "name") :=
  (ToMap_Get [⟨"id", "7"⟩, ⟨"name", "x"⟩] "name" ⟨⟨"name", "x"⟩, by simp, rfl⟩).2
    (by
      intro p hp q hq hpk hqk
      simp only [List.mem_cons, List.mem_singleton, List.not_mem_nil, or_false] at hp hq
      rcases hp with rfl | rfl <;> rcases hq with rfl | rfl <;> simp_all)

/-- C16: for every key and every list of URL parameters u, `URLParams.Get`
returns the value of the first entry of u whose key is the given one (the entry
at the least index with that key), and the empty string when no entry of u has
that key, in particular when u is empty; `Request.PathValue` is that lookup in
the URL parameters of the request. -/
theorem Get_first (u : URLParams) (key : String) :
    URLParams.Get u key = firstValue u key ∧
    (∀ (i : Nat) (p : URLParam), u[i]? = some p → p.Key = key →
      (∀ (j : Nat) (q : URLParam), j < i → u[j]? = some q → q.Key ≠ key) →
      URLParams.Get u key = p.Value) ∧
    ((∀ p ∈ u, p.Key ≠ key) → URLParams.Get u key = "") ∧
    URLParams.Get [] key = "" ∧
    (∀ r : Request, r.PathValue key = URLParams.Get r.URLParams key) := by
  refine ⟨?_, ?_, ?_, rfl, fun _ => rfl⟩
  · induction u with
    | nil => rfl
    | cons q u ih =>
      by_cases hq : q.Key = key
      · simp [URLParams.Get, firstValue, hq]
      · have hf : List.find? (fun p => p.Key == key) (q :: u)
            = List.find? (fun p => p.Key == key) u :=
          List.find?_cons_of_neg _ (by simp [hq])
        simp only [URLParams.Get, beq_iff_eq, hq, if_false, ih, firstValue, hf]
  · induction u with
    | nil => intro i p hi; simp at hi
    | cons q u ih =>
      intro i p hi hp hfirst
      cases i with
      | zero =>
        simp only [List.getElem?_cons_zero, Option.some.injEq] at hi
        subst hi
        simp [URLParams.Get, hp]
      | succ i =>
        have hq : q.Key ≠ key := hfirst 0 q (Nat.succ_pos i) (by simp)
        simp only [URLParams.Get, beq_iff_eq, hq, if_false]
        apply ih i p (by simpa using hi) hp
        intro j q2 hj hq2
        exact hfirst (j + 1) q2 (Nat.succ_lt_succ hj) (by simpa using hq2)
  · induction u with
    | nil => intro _; rfl
    | cons q u ih =>
      intro h
      have hq : q.Key ≠ key := h q (List.mem_cons_self _ _)
      simp only [URLParams.Get, beq_iff_eq, hq, if_false]
      exact ih (fun p hp => h p (List.mem_cons_of_mem _ hp))

/-- Witness of C16: the first of two entries with the key "id" is returned, and
a key without entry gives the empty string. -/
theorem Get_first_witness :
    URLParams.Get repeatedParams "id" = "1" ∧ URLParams.Get repeatedParams "page" = "" :=
  ⟨(Get_first repeatedParams "id").2.1 0 ⟨"id", "1"⟩ rfl rfl
      (fun j _ hj => absurd hj (Nat.not_lt_zero j)),
   (Get_first repeatedParams "page").2.2.1 (by decide)⟩

/-! ## Reset and ParseRequest -/

/-- C13: after Reset every field of the wrapper has its zero value, whatever the
wrapper held: Scheme, Host, Proto, Method and Path are empty strings, Header and
URLParams are nil, IsGzipAccepted is false and raw, locale, contentType,
acceptContentType and acceptEncoding are nil, so the wrapper is the zero
Request; on the next access each of the three negotiation getters negotiates
anew; Reset is idempotent. -/
theorem Reset_zero (pkg : Package) (r : Request) :
    r.Reset.Scheme = "" ∧ r.Reset.Host = "" ∧ r.Reset.Proto = "" ∧ r.Reset.Method = "" ∧
    r.Reset.Path = "" ∧ r.Reset.Header = [] ∧ r.Reset.URLParams = [] ∧
    r.Reset.IsGzipAccepted = false ∧ r.Reset.raw = none ∧ r.Reset.locale = none ∧
    r.Reset.contentType = none ∧ r.Reset.acceptContentType = none ∧
    r.Reset.acceptEncoding = none ∧
    r.Reset = {} ∧
    (r.Reset.AcceptContentType pkg).calls = [.NegotiateContentType] ∧
    (r.Reset.AcceptEncoding pkg).calls.head? = some .ParseAcceptEncoding ∧
    (r.Reset.Locale pkg).calls = [.NegotiateLocale] ∧
    r.Reset.Reset = r.Reset := by
  refine ⟨rfl, rfl, rfl, rfl, rfl, rfl, rfl, rfl, rfl, rfl, rfl, rfl, rfl, rfl, rfl, ?_, rfl,
    rfl⟩
  have hr : r.Reset.acceptEncoding = none := rfl
  unfold Request.AcceptEncoding
  rw [hr]
  cases pkg.ParseAcceptEncoding r.Reset.Unwrap <;> rfl

/-- The scan of `strings.Index` finds a position exactly when the substring
occurs. -/
theorem indexFrom_nonneg (substr l : List Char) (i : Nat) :
    0 ≤ strings.indexFrom substr l i ↔ substr <:+: l := by
  induction l generalizing i with
  | nil =>
    by_cases hs : substr = []
    · simp [strings.indexFrom, hs]
    · simp [strings.indexFrom, hs]
  | cons c cs ih =>
    by_cases hp : substr <+: c :: cs
    · have hp2 : substr.isPrefixOf (c :: cs) = true := List.isPrefixOf_iff_prefix.mpr hp
      simp only [strings.indexFrom, hp2, if_true]
      exact ⟨fun _ => hp.isInfix, fun _ => Int.ofNat_nonneg i⟩
    · have hp2 : ¬ substr.isPrefixOf (c :: cs) = true :=
        fun h => hp (List.isPrefixOf_iff_prefix.mp h)
      have hstep : strings.indexFrom substr (c :: cs) i
          = strings.indexFrom substr cs (i + 1) := by
        rw [strings.indexFrom, if_neg hp2]
      rw [hstep, ih (i + 1), List.infix_cons_iff]
      exact ⟨Or.inr, fun h => h.resolve_left hp⟩

/-- The test `strings.Index(s, substr) >= 0` holds exactly when `substr` occurs
in `s` as a literal substring. -/
theorem Index_nonneg (s substr : String) :
    strings.Index s substr ≥ 0 ↔ substr.toList <:+: s.toList :=
  indexFrom_nonneg substr.toList s.toList 0

/-- The flag `IsGzipAccepted` after `ParseRequest`. -/
theorem ParseRequest_flag (pkg : Package) (r : http.Request) (req : Request) :
    (ParseRequest pkg r req).IsGzipAccepted =
      match r.Header.index HeaderAcceptEncoding with
      | v :: _ => decide (strings.Index v "gzip" ≥ 0)
      | [] => req.IsGzipAccepted := by
  unfold ParseRequest
  cases r.Header.index HeaderAcceptEncoding <;> rfl

/-- C14 as stated fails: a wrapper that was passed in with IsGzipAccepted set
keeps the flag through ParseRequest of a request without an Accept-Encoding
header. -/
theorem ParseRequest_gzip_counterexample :
    ¬ ((ParseRequest samplePackage plainRaw staleRequest).IsGzipAccepted = true ↔
       ∃ v vs, plainRaw.Header.index HeaderAcceptEncoding = v :: vs ∧
         "gzip".toList <:+: v.toList) := by
  intro h
  obtain ⟨v, vs, hv, _⟩ := h.mp (by decide)
  have hnil : plainRaw.Header.index HeaderAcceptEncoding = [] := by decide
  rw [hnil] at hv
  exact absurd hv (by simp)

/-- C14, amended: for every raw HTTP request r and every wrapper req whose
IsGzipAccepted is false when it is passed in (as Reset and the pool leave it),
after ParseRequest(r, req) the flag is true if and only if r carries an
Accept-Encoding header with at least one value and the literal substring "gzip"
occurs in its first value, so it is false when r has no Accept-Encoding header.
In general the flag is true exactly in that case or when r has no
Accept-Encoding value and req came in with the flag set: without such a value
ParseRequest leaves the flag as it was. -/
theorem ParseRequest_gzip (pkg : Package) (r : http.Request) (req : Request) :
    ((ParseRequest pkg r req).IsGzipAccepted = true ↔
      (∃ v vs, r.Header.index HeaderAcceptEncoding = v :: vs ∧
        "gzip".toList <:+: v.toList) ∨
      (r.Header.index HeaderAcceptEncoding = [] ∧ req.IsGzipAccepted = true)) ∧
    (req.IsGzipAccepted = false →
      ((ParseRequest pkg r req).IsGzipAccepted = true ↔
        ∃ v vs, r.Header.index HeaderAcceptEncoding = v :: vs ∧
          "gzip".toList <:+: v.toList)) ∧
    (req.IsGzipAccepted = false → r.Header.index HeaderAcceptEncoding = [] →
      (ParseRequest pkg r req).IsGzipAccepted = false) := by
  have hflag := ParseRequest_flag pkg r req
  cases hh : r.Header.index HeaderAcceptEncoding with
  | nil =>
    rw [hh] at hflag
    simp only at hflag
    rw [hflag]
    refine ⟨?_, fun hf => ?_, fun hf _ => hf⟩
    · simp
    · simp [hf]
  | cons v vs =>
    rw [hh] at hflag
    simp only at hflag
    have hI := Index_nonneg v "gzip"
    rw [hflag, decide_eq_true_iff]
    refine ⟨?_, fun _ => ?_, fun _ h => ?_⟩
    · rw [hI]
      constructor
      · exact fun h => Or.inl ⟨v, vs, rfl, h⟩
      · rintro (⟨v2, vs2, h2, hin⟩ | ⟨h2, _⟩)
        · rw [List.cons.injEq] at h2
          rw [h2.1]
          exact hin
        · simp at h2
    · rw [hI]
      constructor
      · exact fun h => ⟨v, vs, rfl, h⟩
      · rintro ⟨v2, vs2, h2, hin⟩
        rw [List.cons.injEq] at h2
        rw [h2.1]
        exact hin
    · simp at h

/-- Witness of C14: a zero wrapper populated from a request that announces
gzip in the first value of its Accept-Encoding header, and from a request
without that header. -/
theorem ParseRequest_gzip_witness :
    (ParseRequest samplePackage gzipRaw {}).IsGzipAccepted = true ∧
    (ParseRequest samplePackage plainRaw {}).IsGzipAccepted = false :=
  ⟨((ParseRequest_gzip samplePackage gzipRaw {}).2.1 rfl).mpr
      ⟨"deflate, gzip;q=0.8", ["br"], by decide, by decide⟩,
   (ParseRequest_gzip samplePackage plainRaw {}).2.2 rfl (by decide)⟩

/-! ## SaveFile -/

/-- C17: for every key and dstFile, if key is empty or dstFile is empty, or if
dstFile names an existing directory, SaveFile returns 0 bytes written together
with an error, without any operation on the multipart form or on a file: the
form file is not extracted, no destination is opened or created, and the file
system is as before. -/
theorem SaveFile_invalid (r : Request) (fs : os.FileSystem) (key dstFile : String)
    (h : key = "" ∨ dstFile = "" ∨ ess.IsDir fs dstFile = true) :
    (∃ err, (r.SaveFile fs key dstFile).ret = some (0, some err)) ∧
    (r.SaveFile fs key dstFile).calls = [] ∧
    (r.SaveFile fs key dstFile).fs = fs := by
  by_cases he : (ess.IsStrEmpty dstFile || ess.IsStrEmpty key) = true
  · have hr : r.SaveFile fs key dstFile
        = ⟨some (0, some "ahttp: key or dstFile is empty"), fs, []⟩ := by
      rw [Request.SaveFile, if_pos he]
    rw [hr]
    exact ⟨⟨_, rfl⟩, rfl, rfl⟩
  · have hd : ess.IsDir fs dstFile = true := by
      rcases h with h | h | h
      · exact absurd (by simp [ess.IsStrEmpty, h]) he
      · exact absurd (by simp [ess.IsStrEmpty, h]) he
      · exact h
    have hr : r.SaveFile fs key dstFile
        = ⟨some (0, some "ahttp: dstFile should not be a directory"), fs, []⟩ := by
      rw [Request.SaveFile, if_neg he, if_pos hd]
    rw [hr]
    exact ⟨⟨_, rfl⟩, rfl, rfl⟩

/-- Witness of C17: an empty key, and a destination that is a directory. -/
theorem SaveFile_invalid_witness :
    (({ raw := some plainRaw } : Request).SaveFile sampleFS "" "/tmp/uploads/a.png").ret
      = some (0, some "ahttp: key or dstFile is empty") ∧
    (({ raw := some plainRaw } : Request).SaveFile sampleFS "avatar" "/tmp/uploads").ret
      = some (0, some "ahttp: dstFile should not be a directory") ∧
    (({ raw := some plainRaw } : Request).SaveFile sampleFS "avatar" "/tmp/uploads").calls
      = [] ∧
    (({ raw := some plainRaw } : Request).SaveFile sampleFS "avatar" "/tmp/uploads").fs
      = sampleFS :=
  have h := SaveFile_invalid { raw := some plainRaw } sampleFS "avatar" "/tmp/uploads"
    (Or.inr (Or.inr (by decide)))
  ⟨by decide, by decide, h.2.1, h.2.2⟩

/-! ## Lazy negotiation -/

/-- Calls in a row of a getter that gives again, on the wrapper it leaves, the
value and the wrapper it gave: every call returns the value of the first. -/
theorem repeatedly_values {α : Type} (getter : Request → Got α)
    (hst : ∀ r, (getter (getter r).req).value = (getter r).value ∧
      (getter (getter r).req).req = (getter r).req) :
    ∀ (n : Nat) (r : Request),
      (repeatedly getter (n + 1) r).1 = List.replicate (n + 1) (getter r).value ∧
      (repeatedly getter (n + 1) r).2.1 = (getter r).req := by
  intro n
  induction n with
  | zero => intro r; exact ⟨rfl, rfl⟩
  | succ n ih =>
    intro r
    obtain ⟨h1, h2⟩ := ih (getter r).req
    obtain ⟨hv, hr⟩ := hst r
    constructor
    · show (getter r).value :: (repeatedly getter (n + 1) (getter r).req).1 = _
      rw [h1, hv]
      rfl
    · show (repeatedly getter (n + 1) (getter r).req).2.1 = _
      rw [h2, hr]

/-- Calls in a row of a getter that, once it gave a non-nil value, invokes
nothing on the wrapper it leaves: all the invocations are those of the first
call. -/
theorem repeatedly_calls {α : Type} (getter : Request → Got α)
    (hst : ∀ r, (getter (getter r).req).value = (getter r).value ∧
      (getter (getter r).req).req = (getter r).req)
    (hhit : ∀ r v, (getter r).value = some v → (getter (getter r).req).calls = []) :
    ∀ (n : Nat) (r : Request) (v : α), (getter r).value = some v →
      (repeatedly getter (n + 1) r).2.2 = (getter r).calls := by
  intro n
  induction n with
  | zero =>
    intro r v _
    show (getter r).calls ++ [] = _
    simp
  | succ n ih =>
    intro r v hv
    have hv2 : (getter (getter r).req).value = some v := by rw [(hst r).1, hv]
    show (getter r).calls ++ (repeatedly getter (n + 1) (getter r).req).2.2 = _
    rw [ih (getter r).req v hv2, hhit r v hv]
    simp

/-- The getter `AcceptContentType` on the wrapper it leaves. -/
theorem AcceptContentType_again (pkg : Package) (r : Request) :
    ((r.AcceptContentType pkg).req.AcceptContentType pkg).value
      = (r.AcceptContentType pkg).value ∧
    ((r.AcceptContentType pkg).req.AcceptContentType pkg).req
      = (r.AcceptContentType pkg).req ∧
    (∀ v, (r.AcceptContentType pkg).value = some v →
      ((r.AcceptContentType pkg).req.AcceptContentType pkg).calls = []) := by
  cases hm : r.acceptContentType with
  | some w => simp [Request.AcceptContentType, hm]
  | none =>
    cases hn : pkg.NegotiateContentType r.raw with
    | none =>
      have hr : ({ r with acceptContentType := none } : Request) = r := by
        cases r; simp_all
      simp [Request.AcceptContentType, Request.Unwrap, hm, hn, hr]
    | some w => simp [Request.AcceptContentType, Request.Unwrap, hm, hn]

/-- The getter `AcceptEncoding` on the wrapper it leaves. -/
theorem AcceptEncoding_again (pkg : Package) (r : Request) :
    ((r.AcceptEncoding pkg).req.AcceptEncoding pkg).value = (r.AcceptEncoding pkg).value ∧
    ((r.AcceptEncoding pkg).req.AcceptEncoding pkg).req = (r.AcceptEncoding pkg).req ∧
    (∀ v, (r.AcceptEncoding pkg).value = some v →
      ((r.AcceptEncoding pkg).req.AcceptEncoding pkg).calls = []) := by
  cases hm : r.acceptEncoding with
  | some w => simp [Request.AcceptEncoding, hm]
  | none =>
    cases hn : pkg.ParseAcceptEncoding r.raw with
    | none => simp [Request.AcceptEncoding, Request.Unwrap, hm, hn]
    | some specs =>
      cases hq : pkg.MostQualified specs with
      | none =>
        have hr : ({ r with acceptEncoding := none } : Request) = r := by
          cases r; simp_all
        simp [Request.AcceptEncoding, Request.Unwrap, hm, hn, hq, hr]
      | some w => simp [Request.AcceptEncoding, Request.Unwrap, hm, hn, hq]

/-- The getter `Locale` on the wrapper it leaves. -/
theorem Locale_again (pkg : Package) (r : Request) :
    ((r.Locale pkg).req.Locale pkg).value = (r.Locale pkg).value ∧
    ((r.Locale pkg).req.Locale pkg).req = (r.Locale pkg).req ∧
    (∀ v, (r.Locale pkg).value = some v → ((r.Locale pkg).req.Locale pkg).calls = []) := by
  cases hm : r.locale with
  | some w => simp [Request.Locale, hm]
  | none =>
    cases hn : pkg.NegotiateLocale r.raw with
    | none =>
      have hr : ({ r with locale := none } : Request) = r := by
        cases r; simp_all
      simp [Request.Locale, Request.Unwrap, hm, hn, hr]
    | some w => simp [Request.Locale, Request.Unwrap, hm, hn]

/-- One call of a negotiation getter invokes each package function at most
once. -/
theorem getter_calls_once (pkg : Package) (r : Request) :
    (r.AcceptContentType pkg).calls.count .NegotiateContentType ≤ 1 ∧
    (r.AcceptEncoding pkg).calls.count .ParseAcceptEncoding ≤ 1 ∧
    (r.Locale pkg).calls.count .NegotiateLocale ≤ 1 := by
  refine ⟨?_, ?_, ?_⟩
  · cases hm : r.acceptContentType <;> simp [Request.AcceptContentType, hm]
  · cases hm : r.acceptEncoding with
    | some w => simp [Request.AcceptEncoding, hm]
    | none =>
      cases hn : pkg.ParseAcceptEncoding r.raw <;>
        simp [Request.AcceptEncoding, Request.Unwrap, hm, hn, List.count_cons]
  · cases hm : r.locale <;> simp [Request.Locale, hm]

/-- The getter `ContentType` on the wrapper it leaves. -/
theorem ContentType_again (pkg : Package) (r : Request) :
    ((r.ContentType pkg).req.ContentType pkg).value = (r.ContentType pkg).value ∧
    ((r.ContentType pkg).req.ContentType pkg).req = (r.ContentType pkg).req ∧
    (∀ v, (r.ContentType pkg).value = some v →
      ((r.ContentType pkg).req.ContentType pkg).calls = []) := by
  cases hm : r.contentType with
  | some w => simp [Request.ContentType, hm]
  | none =>
    cases hn : pkg.ParseContentType r.raw with
    | none =>
      have hr : ({ r with contentType := none } : Request) = r := by
        cases r; simp_all
      simp [Request.ContentType, Request.Unwrap, hm, hn, hr]
    | some w => simp [Request.ContentType, Request.Unwrap, hm, hn]

/-- `AcceptContentType` writes no field but its own. -/
theorem AcceptContentType_frame (pkg : Package) (r : Request) :
    (r.AcceptContentType pkg).req.raw = r.raw ∧
    (r.AcceptContentType pkg).req.acceptEncoding = r.acceptEncoding ∧
    (r.AcceptContentType pkg).req.contentType = r.contentType ∧
    (r.AcceptContentType pkg).req.locale = r.locale := by
  cases hm : r.acceptContentType <;> simp [Request.AcceptContentType, hm]

/-- `AcceptEncoding` writes no field but its own. -/
theorem AcceptEncoding_frame (pkg : Package) (r : Request) :
    (r.AcceptEncoding pkg).req.raw = r.raw ∧
    (r.AcceptEncoding pkg).req.acceptContentType = r.acceptContentType ∧
    (r.AcceptEncoding pkg).req.contentType = r.contentType ∧
    (r.AcceptEncoding pkg).req.locale = r.locale := by
  cases hm : r.acceptEncoding with
  | some w => simp [Request.AcceptEncoding, hm]
  | none =>
    cases hn : pkg.ParseAcceptEncoding r.raw <;>
      simp [Request.AcceptEncoding, Request.Unwrap, hm, hn]

/-- `ContentType` writes no field but its own. -/
theorem ContentType_frame (pkg : Package) (r : Request) :
    (r.ContentType pkg).req.raw = r.raw ∧
    (r.ContentType pkg).req.acceptContentType = r.acceptContentType ∧
    (r.ContentType pkg).req.acceptEncoding = r.acceptEncoding ∧
    (r.ContentType pkg).req.locale = r.locale := by
  cases hm : r.contentType <;> simp [Request.ContentType, hm]

/-- `Locale` writes no field but its own. -/
theorem Locale_frame (pkg : Package) (r : Request) :
    (r.Locale pkg).req.raw = r.raw ∧
    (r.Locale pkg).req.acceptContentType = r.acceptContentType ∧
    (r.Locale pkg).req.acceptEncoding = r.acceptEncoding ∧
    (r.Locale pkg).req.contentType = r.contentType := by
  cases hm : r.locale <;> simp [Request.Locale, hm]

/-- What `AcceptContentType` returns and invokes depends on its own field and
on the raw request only. -/
theorem AcceptContentType_congr (pkg : Package) (r1 r2 : Request)
    (hf : r1.acceptContentType = r2.acceptContentType) (hr : r1.raw = r2.raw) :
    (r1.AcceptContentType pkg).value = (r2.AcceptContentType pkg).value ∧
    (r1.AcceptContentType pkg).calls = (r2.AcceptContentType pkg).calls := by
  cases hm : r2.acceptContentType <;>
    simp [Request.AcceptContentType, Request.Unwrap, hm, hf.trans hm, hr]

/-- What `AcceptEncoding` returns and invokes depends on its own field and on
the raw request only. -/
theorem AcceptEncoding_congr (pkg : Package) (r1 r2 : Request)
    (hf : r1.acceptEncoding = r2.acceptEncoding) (hr : r1.raw = r2.raw) :
    (r1.AcceptEncoding pkg).value = (r2.AcceptEncoding pkg).value ∧
    (r1.AcceptEncoding pkg).calls = (r2.AcceptEncoding pkg).calls := by
  cases hm : r2.acceptEncoding with
  | some w => simp [Request.AcceptEncoding, hm, hf.trans hm]
  | none =>
    cases hn : pkg.ParseAcceptEncoding r2.raw <;>
      simp [Request.AcceptEncoding, Request.Unwrap, hm, hf.trans hm, hr, hn]

/-- What `ContentType` returns and invokes depends on its own field and on the
raw request only. -/
theorem ContentType_congr (pkg : Package) (r1 r2 : Request)
    (hf : r1.contentType = r2.contentType) (hr : r1.raw = r2.raw) :
    (r1.ContentType pkg).value = (r2.ContentType pkg).value ∧
    (r1.ContentType pkg).calls = (r2.ContentType pkg).calls := by
  cases hm : r2.contentType <;>
    simp [Request.ContentType, Request.Unwrap, hm, hf.trans hm, hr]

/-- What `Locale` returns and invokes depends on its own field and on the raw
request only. -/
theorem Locale_congr (pkg : Package) (r1 r2 : Request)
    (hf : r1.locale = r2.locale) (hr : r1.raw = r2.raw) :
    (r1.Locale pkg).value = (r2.Locale pkg).value ∧
    (r1.Locale pkg).calls = (r2.Locale pkg).calls := by
  cases hm : r2.locale <;>
    simp [Request.Locale, Request.Unwrap, hm, hf.trans hm, hr]

/-- A getter call is seen under the name of its getter. -/
theorem call_getter (pkg : Package) (r : Request) (g : Getter) :
    (r.call pkg g).1.getter = g := by
  cases g <;> rfl

/-- A getter call does not change what any getter returns. -/
theorem call_value_stable (pkg : Package) (r : Request) (g h : Getter) :
    ((r.call pkg h).2.call pkg g).1.value = (r.call pkg g).1.value := by
  have fa := AcceptContentType_frame pkg r
  have fe := AcceptEncoding_frame pkg r
  have fc := ContentType_frame pkg r
  have fl := Locale_frame pkg r
  cases g <;> cases h <;> simp only [Request.call]
  · rw [(AcceptContentType_again pkg r).1]
  · rw [(AcceptContentType_congr pkg _ r fe.2.1 fe.1).1]
  · rw [(AcceptContentType_congr pkg _ r fc.2.1 fc.1).1]
  · rw [(AcceptContentType_congr pkg _ r fl.2.1 fl.1).1]
  · rw [(AcceptEncoding_congr pkg _ r fa.2.1 fa.1).1]
  · rw [(AcceptEncoding_again pkg r).1]
  · rw [(AcceptEncoding_congr pkg _ r fc.2.2.1 fc.1).1]
  · rw [(AcceptEncoding_congr pkg _ r fl.2.2.1 fl.1).1]
  · rw [(ContentType_congr pkg _ r fa.2.2.1 fa.1).1]
  · rw [(ContentType_congr pkg _ r fe.2.2.1 fe.1).1]
  · rw [(ContentType_again pkg r).1]
  · rw [(ContentType_congr pkg _ r fl.2.2.2 fl.1).1]
  · rw [(Locale_congr pkg _ r fa.2.2.2 fa.1).1]
  · rw [(Locale_congr pkg _ r fe.2.2.2 fe.1).1]
  · rw [(Locale_congr pkg _ r fc.2.2.2 fc.1).1]
  · rw [(Locale_again pkg r).1]

/-- A value the wrapper holds for a getter survives every getter call. -/
theorem call_holds (pkg : Package) (r : Request) (g h : Getter)
    (hg : r.holds g = true) : (r.call pkg h).2.holds g = true := by
  have fa := AcceptContentType_frame pkg r
  have fe := AcceptEncoding_frame pkg r
  have fc := ContentType_frame pkg r
  have fl := Locale_frame pkg r
  cases g <;> cases h <;> simp only [Request.call, Request.holds] at hg ⊢
  · obtain ⟨v, hv⟩ := Option.isSome_iff_exists.mp hg
    simp [Request.AcceptContentType, hv]
  · rw [fe.2.1]; exact hg
  · rw [fc.2.1]; exact hg
  · rw [fl.2.1]; exact hg
  · rw [fa.2.1]; exact hg
  · obtain ⟨v, hv⟩ := Option.isSome_iff_exists.mp hg
    simp [Request.AcceptEncoding, hv]
  · rw [fc.2.2.1]; exact hg
  · rw [fl.2.2.1]; exact hg
  · rw [fa.2.2.1]; exact hg
  · rw [fe.2.2.1]; exact hg
  · obtain ⟨v, hv⟩ := Option.isSome_iff_exists.mp hg
    simp [Request.ContentType, hv]
  · rw [fl.2.2.2]; exact hg
  · rw [fa.2.2.2]; exact hg
  · rw [fe.2.2.2]; exact hg
  · rw [fc.2.2.2]; exact hg
  · obtain ⟨v, hv⟩ := Option.isSome_iff_exists.mp hg
    simp [Request.Locale, hv]

/-- A getter whose value the wrapper holds invokes nothing. -/
theorem call_hit (pkg : Package) (r : Request) (g : Getter) (hg : r.holds g = true) :
    (r.call pkg g).1.calls = [] := by
  cases g <;> simp only [Request.call, Request.holds] at hg ⊢ <;>
    obtain ⟨v, hv⟩ := Option.isSome_iff_exists.mp hg
  · simp [Request.AcceptContentType, hv]
  · simp [Request.AcceptEncoding, hv]
  · simp [Request.ContentType, hv]
  · simp [Request.Locale, hv]

/-- A getter call that returns a non-nil pointer leaves it in the wrapper. -/
theorem call_stores (pkg : Package) (r : Request) (g : Getter)
    (hv : (r.call pkg g).1.value.isNil = false) : (r.call pkg g).2.holds g = true := by
  cases g <;> simp only [Request.call, Request.holds, Value.isNil] at hv ⊢
  · cases hm : r.acceptContentType <;>
      simp_all [Request.AcceptContentType, Request.Unwrap]
  · cases hm : r.acceptEncoding with
    | some w => simp [Request.AcceptEncoding, hm]
    | none =>
      cases hn : pkg.ParseAcceptEncoding r.raw <;>
        simp_all [Request.AcceptEncoding, Request.Unwrap]
  · cases hm : r.contentType <;> simp_all [Request.ContentType, Request.Unwrap]
  · cases hm : r.locale <;> simp_all [Request.Locale, Request.Unwrap]

/-- One getter call invokes the function of its getter at most once, and the
function of no other getter of the four. -/
theorem call_count (pkg : Package) (r : Request) (g h : Getter) :
    (r.call pkg h).1.calls.count g.function ≤ 1 ∧
    (g ≠ h → (r.call pkg h).1.calls.count g.function = 0) := by
  cases h
  · cases hm : r.acceptContentType <;> cases g <;>
      simp [Request.call, Request.AcceptContentType, hm, Getter.function, List.count_cons]
  · cases hm : r.acceptEncoding with
    | some w =>
      cases g <;> simp [Request.call, Request.AcceptEncoding, hm, Getter.function]
    | none =>
      cases hn : pkg.ParseAcceptEncoding r.raw <;> cases g <;>
        simp [Request.call, Request.AcceptEncoding, Request.Unwrap, hm, hn,
          Getter.function, List.count_cons]
  · cases hm : r.contentType <;> cases g <;>
      simp [Request.call, Request.ContentType, hm, Getter.function, List.count_cons]
  · cases hm : r.locale <;> cases g <;>
      simp [Request.call, Request.Locale, hm, Getter.function, List.count_cons]

/-- C15 as stated fails: on a wrapper populated from a request without an
Accept-Encoding header, for which the parse yields nil, two calls of
AcceptEncoding invoke ParseAcceptEncoding twice. -/
theorem memoization_counterexample :
    (repeatedly (Request.AcceptEncoding samplePackage) 2
      (ParseRequest samplePackage plainRaw {})).2.2
        = [.ParseAcceptEncoding, .ParseAcceptEncoding] ∧
    ¬ ((repeatedly (Request.AcceptEncoding samplePackage) 2
      (ParseRequest samplePackage plainRaw {})).2.2.count .ParseAcceptEncoding ≤ 1) := by
  constructor <;> decide

/-- Calls in a row of one getter: every call returns the value of the first,
the underlying function is invoked at most once when that value is not nil, and
after a setter with a non-nil value the getter returns it without
negotiating. -/
theorem memoization_in_a_row (pkg : Package) (r : Request) (n : Nat) :
    ((repeatedly (Request.AcceptContentType pkg) (n + 1) r).1
        = List.replicate (n + 1) (r.AcceptContentType pkg).value ∧
     (repeatedly (Request.AcceptEncoding pkg) (n + 1) r).1
        = List.replicate (n + 1) (r.AcceptEncoding pkg).value ∧
     (repeatedly (Request.Locale pkg) (n + 1) r).1
        = List.replicate (n + 1) (r.Locale pkg).value) ∧
    ((r.AcceptContentType pkg).value ≠ none →
      (repeatedly (Request.AcceptContentType pkg) (n + 1) r).2.2.count
        .NegotiateContentType ≤ 1) ∧
    ((r.AcceptEncoding pkg).value ≠ none →
      (repeatedly (Request.AcceptEncoding pkg) (n + 1) r).2.2.count
        .ParseAcceptEncoding ≤ 1) ∧
    ((r.Locale pkg).value ≠ none →
      (repeatedly (Request.Locale pkg) (n + 1) r).2.2.count .NegotiateLocale ≤ 1) ∧
    (∀ v : ContentType,
      (r.SetAcceptContentType (some v)).AcceptContentType pkg
        = ⟨some v, r.SetAcceptContentType (some v), []⟩) ∧
    (∀ v : AcceptSpec,
      (r.SetAcceptEncoding (some v)).AcceptEncoding pkg
        = ⟨some v, r.SetAcceptEncoding (some v), []⟩) ∧
    (∀ v : ahttp.Locale,
      (r.SetLocale (some v)).Locale pkg = ⟨some v, r.SetLocale (some v), []⟩) := by
  have hct : ∀ r, _ := fun r =>
    (⟨(AcceptContentType_again pkg r).1, (AcceptContentType_again pkg r).2.1⟩ :
      ((r.AcceptContentType pkg).req.AcceptContentType pkg).value
        = (r.AcceptContentType pkg).value ∧
      ((r.AcceptContentType pkg).req.AcceptContentType pkg).req
        = (r.AcceptContentType pkg).req)
  have hae : ∀ r, _ := fun r =>
    (⟨(AcceptEncoding_again pkg r).1, (AcceptEncoding_again pkg r).2.1⟩ :
      ((r.AcceptEncoding pkg).req.AcceptEncoding pkg).value = (r.AcceptEncoding pkg).value ∧
      ((r.AcceptEncoding pkg).req.AcceptEncoding pkg).req = (r.AcceptEncoding pkg).req)
  have hlo : ∀ r, _ := fun r =>
    (⟨(Locale_again pkg r).1, (Locale_again pkg r).2.1⟩ :
      ((r.Locale pkg).req.Locale pkg).value = (r.Locale pkg).value ∧
      ((r.Locale pkg).req.Locale pkg).req = (r.Locale pkg).req)
  have once := getter_calls_once pkg r
  refine ⟨⟨(repeatedly_values _ hct n r).1, (repeatedly_values _ hae n r).1,
    (repeatedly_values _ hlo n r).1⟩, ?_, ?_, ?_, fun _ => rfl, fun _ => rfl, fun _ => rfl⟩
  · intro hv
    obtain ⟨v, hv⟩ := Option.ne_none_iff_exists'.mp hv
    rw [repeatedly_calls _ hct (fun r => (AcceptContentType_again pkg r).2.2) n r v hv]
    exact once.1
  · intro hv
    obtain ⟨v, hv⟩ := Option.ne_none_iff_exists'.mp hv
    rw [repeatedly_calls _ hae (fun r => (AcceptEncoding_again pkg r).2.2) n r v hv]
    exact once.2.1
  · intro hv
    obtain ⟨v, hv⟩ := Option.ne_none_iff_exists'.mp hv
    rw [repeatedly_calls _ hlo (fun r => (Locale_again pkg r).2.2) n r v hv]
    exact once.2.2

/-- Every call of a sequence of getter calls returns what a call of its getter
on the wrapper at the start returns. -/
theorem run_value (pkg : Package) (ops : List Getter) :
    ∀ (r : Request), ∀ s ∈ (run pkg ops r).1,
      s.value = (r.call pkg s.getter).1.value := by
  induction ops with
  | nil => intro r s hs; simp [run] at hs
  | cons h rest ih =>
    intro r s hs
    simp only [run, List.mem_cons] at hs
    rcases hs with hs | hs
    · rw [hs, call_getter]
    · rw [ih (r.call pkg h).2 s hs, call_value_stable]

/-- The calls of a sequence are the calls of the given getters, in order. -/
theorem run_getters (pkg : Package) (ops : List Getter) :
    ∀ (r : Request), (run pkg ops r).1.map Step.getter = ops := by
  induction ops with
  | nil => intro r; rfl
  | cons h rest ih =>
    intro r
    simp only [run, List.map_cons, call_getter, ih]

/-- While the wrapper holds a value for a getter, no call of a sequence invokes
the function of that getter, and the calls of that getter invoke nothing. -/
theorem run_hit (pkg : Package) (g : Getter) (ops : List Getter) :
    ∀ (r : Request), r.holds g = true →
      (invoked (run pkg ops r).1).count g.function = 0 ∧
      ∀ s ∈ (run pkg ops r).1, s.getter = g → s.calls = [] := by
  induction ops with
  | nil => intro r _; exact ⟨rfl, fun s hs => by simp [run] at hs⟩
  | cons h rest ih =>
    intro r hg
    obtain ⟨ih1, ih2⟩ := ih (r.call pkg h).2 (call_holds pkg r g h hg)
    have hfirst : (r.call pkg h).1.calls.count g.function = 0 := by
      by_cases hgh : g = h
      · rw [← hgh, call_hit pkg r g hg]
        rfl
      · exact (call_count pkg r g h).2 hgh
    constructor
    · simp only [run, invoked, List.count_append, hfirst, ih1]
    · intro s hs hsg
      simp only [run, List.mem_cons] at hs
      rcases hs with hs | hs
      · rw [hs, call_getter] at hsg
        rw [hs, hsg]
        exact call_hit pkg r g hg
      · exact ih2 s hs hsg

/-- When a getter yields a non-nil value on the wrapper, a sequence of getter
calls invokes its function at most once. -/
theorem run_once (pkg : Package) (g : Getter) (ops : List Getter) :
    ∀ (r : Request), (r.call pkg g).1.value.isNil = false →
      (invoked (run pkg ops r).1).count g.function ≤ 1 := by
  induction ops with
  | nil => intro r _; exact Nat.zero_le 1
  | cons h rest ih =>
    intro r hv
    simp only [run, invoked, List.count_append]
    by_cases hgh : g = h
    · subst hgh
      have h1 := (call_count pkg r g g).1
      have h2 := (run_hit pkg g rest (r.call pkg g).2 (call_stores pkg r g hv)).1
      omega
    · have h1 := (call_count pkg r g h).2 hgh
      have hv2 : ((r.call pkg h).2.call pkg g).1.value.isNil = false := by
        rw [call_value_stable]
        exact hv
      have h2 := ih (r.call pkg h).2 hv2
      omega

/-- C15, amended: for every wrapper and every sequence of calls, in any order
and any number, of the lazy getters AcceptContentType, AcceptEncoding, Locale
(and ContentType) with no Reset or setter in between, every call of a getter
returns the value the first call of that getter returned; when that value is
not nil, the underlying negotiation or parse function of the getter is invoked
at most once over the whole sequence (a nil result is not stored, so the
function is invoked again by the next call of that getter); and after
SetAcceptContentType(v), SetAcceptEncoding(v) or SetLocale(v) with non-nil v
every call of the corresponding getter in such a sequence returns v without
negotiating. -/
theorem memoization_interleaved (pkg : Package) (r : Request) (ops : List Getter) :
    (run pkg ops r).1.map Step.getter = ops ∧
    (∀ s ∈ (run pkg ops r).1, ∀ t ∈ (run pkg ops r).1,
      s.getter = t.getter → s.value = t.value) ∧
    (∀ s ∈ (run pkg ops r).1, s.value.isNil = false →
      (invoked (run pkg ops r).1).count s.getter.function ≤ 1) ∧
    (∀ (v : ContentType), ∀ s ∈ (run pkg ops (r.SetAcceptContentType (some v))).1,
      s.getter = .AcceptContentType → s.value = .contentType (some v) ∧ s.calls = []) ∧
    (∀ (v : AcceptSpec), ∀ s ∈ (run pkg ops (r.SetAcceptEncoding (some v))).1,
      s.getter = .AcceptEncoding → s.value = .acceptSpec (some v) ∧ s.calls = []) ∧
    (∀ (v : ahttp.Locale), ∀ s ∈ (run pkg ops (r.SetLocale (some v))).1,
      s.getter = .Locale → s.value = .locale (some v) ∧ s.calls = []) := by
  refine ⟨run_getters pkg ops r, ?_, ?_, ?_, ?_, ?_⟩
  · intro s hs t ht hst
    rw [run_value pkg ops r s hs, run_value pkg ops r t ht, hst]
  · intro s hs hv
    apply run_once pkg s.getter ops r
    rw [← run_value pkg ops r s hs]
    exact hv
  · intro v s hs hg
    refine ⟨?_, (run_hit pkg .AcceptContentType ops (r.SetAcceptContentType (some v)) rfl).2 s hs hg⟩
    rw [run_value pkg ops _ s hs, hg]
    rfl
  · intro v s hs hg
    refine ⟨?_, (run_hit pkg .AcceptEncoding ops (r.SetAcceptEncoding (some v)) rfl).2 s hs hg⟩
    rw [run_value pkg ops _ s hs, hg]
    rfl
  · intro v s hs hg
    refine ⟨?_, (run_hit pkg .Locale ops (r.SetLocale (some v)) rfl).2 s hs hg⟩
    rw [run_value pkg ops _ s hs, hg]
    rfl

/-- Witness of C15: on a wrapper populated from a request that announces gzip,
six interleaved getter calls, three of them of AcceptEncoding, parse the accept
encoding once; after SetLocale, the call of Locale that follows two other
getters returns the given locale without negotiating. -/
theorem memoization_interleaved_witness :
    (invoked (run samplePackage
      [.AcceptEncoding, .Locale, .AcceptContentType, .AcceptEncoding, .Locale,
       .AcceptEncoding]
      (ParseRequest samplePackage gzipRaw {})).1).count .ParseAcceptEncoding ≤ 1 ∧
    (∀ s ∈ (run samplePackage [.AcceptEncoding, .AcceptContentType, .Locale]
        ((ParseRequest samplePackage gzipRaw {}).SetLocale (some { Raw := "fr" }))).1,
      s.getter = .Locale → s.value = .locale (some { Raw := "fr" }) ∧ s.calls = []) :=
  ⟨(memoization_interleaved samplePackage (ParseRequest samplePackage gzipRaw {})
      [.AcceptEncoding, .Locale, .AcceptContentType, .AcceptEncoding, .Locale,
       .AcceptEncoding]).2.2.1
      ⟨.AcceptEncoding,
       .acceptSpec (some { Raw := "deflate, gzip;q=0.8", Value := "deflate, gzip;q=0.8" }),
       [.ParseAcceptEncoding, .MostQualified]⟩ (by decide) rfl,
   (memoization_interleaved samplePackage (ParseRequest samplePackage gzipRaw {})
      [.AcceptEncoding, .AcceptContentType, .Locale]).2.2.2.2.2 { Raw := "fr" }⟩

/-- What `SaveFile` does past its guards on the sample upload: a file that can
be created receives the bytes; a destination that exists or that the system
refuses, a copy cut short by the space left or by a failing read, and a form
key without file each give the error met, with the bytes written so far. -/
theorem SaveFile_outcomes :
    (({ raw := some plainRaw } : Request).SaveFile sampleFS "avatar" "/tmp/uploads/a.png").ret
      = some (4, none) ∧
    (({ raw := some plainRaw } : Request).SaveFile sampleFS "avatar"
      "/tmp/uploads/a.png").fs.files
      = [("/tmp/uploads/a.png", [137, 80, 78, 71]), ("/tmp/uploads/old.png", [1, 2, 3])] ∧
    (({ raw := some plainRaw } : Request).SaveFile sampleFS "avatar"
      "/tmp/uploads/a.png").calls
      = [.FormFile "avatar", .OpenFile "/tmp/uploads/a.png", .Copy "/tmp/uploads/a.png" 4,
         .CloseFile "/tmp/uploads/a.png", .CloseUpload] ∧
    (({ raw := some plainRaw } : Request).SaveFile sampleFS "avatar"
      "/tmp/uploads/old.png").ret
      = some (0, some "ahttp: open /tmp/uploads/old.png: file exists") ∧
    (({ raw := some plainRaw } : Request).SaveFile tightFS "avatar" "/nowhere/a.png").ret
      = some (0, some "ahttp: open /nowhere/a.png: no such file or directory") ∧
    (({ raw := some plainRaw } : Request).SaveFile tightFS "avatar" "/tmp/uploads/a.png").ret
      = some (3, some "write /tmp/uploads/a.png: no space left on device") ∧
    (({ raw := some plainRaw } : Request).SaveFile sampleFS "broken" "/tmp/uploads/b.png").ret
      = some (2, some "unexpected EOF") ∧
    (({ raw := some plainRaw } : Request).SaveFile sampleFS "logo" "/tmp/uploads/c.png").ret
      = some (0, some "http: no such file") ∧
    (({} : Request).SaveFile sampleFS "avatar" "/tmp/uploads/a.png").ret = none := by
  refine ⟨?_, ?_, ?_, ?_, ?_, ?_, ?_, ?_, ?_⟩ <;> decide

end ahttp
